import Mathlib

/-!
Verification of the constrained Delaunay triangulation library.

This file is a shallow embedding of the Rust sources into Lean 4.
`f32` values are modelled by exact rationals (`ℚ`): every numeric literal
of the source appears as the corresponding rational, the tolerance
`0.00000001` as `1 / 10^8`.  Machine indices (`usize`) are modelled by `ℕ`;
a `usize` subtraction that can underflow, an `unwrap`/`expect` on `None`
and out-of-range indexing are the panics of the source and are modelled
explicitly where a claim depends on them (the `PanicOr` result type).
Loops of the source that have no structural termination measure take an
explicit fuel argument; exhausting the fuel is reported separately from a
panic, so a statement "for every fuel the result is `fuelExhausted`" is the
statement that the source loop never terminates.
-/

set_option maxRecDepth 1000000

namespace CDT

attribute [local semireducible] Rat.add Rat.sub Rat.mul Rat.inv

/-- Model of `data_structures/vector.rs`: a 2D point with `f32` components,
here exact rationals.  `PartialEq` on two non-NaN floats is equality of the
represented values, which is equality in `ℚ`. -/
structure Vector where
  x : ℚ
  y : ℚ
deriving DecidableEq, Repr

/-- Componentwise subtraction, `impl Sub<Vector> for Vector`. -/
def Vector.sub (a b : Vector) : Vector := ⟨a.x - b.x, a.y - b.y⟩

/-- Componentwise addition, `impl Add<Vector> for Vector`. -/
def Vector.add (a b : Vector) : Vector := ⟨a.x + b.x, a.y + b.y⟩

/-- Componentwise multiplication, `impl Mul<Vector> for Vector`. -/
def Vector.mulV (a b : Vector) : Vector := ⟨a.x * b.x, a.y * b.y⟩

/-- Scalar multiplication, `impl Mul<f32> for Vector`. -/
def Vector.mulS (a : Vector) (r : ℚ) : Vector := ⟨a.x * r, a.y * r⟩

/-- Componentwise division, `impl Div<Vector> for Vector`. -/
def Vector.divV (a b : Vector) : Vector := ⟨a.x / b.x, a.y / b.y⟩

/-- Cross product of two vectors, `Vector::cross_product`. -/
def Vector.cross_product (a b : Vector) : ℚ := a.x * b.y - a.y * b.x

/-- Model of `data_structures/triangle.rs`: a triangle by value. -/
structure Triangle where
  v0 : Vector
  v1 : Vector
  v2 : Vector
deriving DecidableEq, Repr

/-- Vertex accessor `Triangle::p` (used with indices 0, 1, 2). -/
def Triangle.p (t : Triangle) (i : Fin 3) : Vector :=
  match i with
  | 0 => t.v0
  | 1 => t.v1
  | 2 => t.v2

/-- The absolute tolerance `0.00000001` of `math_utils.rs`. -/
def epsilonTol : ℚ := 1 / 100000000

/-- Model of `math_utils::is_point_to_the_right_of_edge`. -/
def is_point_to_the_right_of_edge (a b p : Vector) : Bool :=
  let p1 := b.x - a.x
  let p2 := p.y - a.y
  let p3 := b.y - a.y
  let p4 := p.x - a.x
  let determinante := p1 * p2 - p3 * p4
  determinante < -epsilonTol

/-- Model of `math_utils::is_point_to_the_left_of_edge`. -/
def is_point_to_the_left_of_edge (a b p : Vector) : Bool :=
  !(is_point_to_the_right_of_edge a b p)

/-- Model of `math_utils::is_point_inside_triangle`. -/
def is_point_inside_triangle (p0 p1 p2 q : Vector) : Bool :=
  is_point_to_the_left_of_edge p0 p1 q &&
  is_point_to_the_left_of_edge p1 p2 q &&
  is_point_to_the_left_of_edge p2 p0 q

/-- Model of `math_utils::is_point_inside_circumcircle` (the Sloan
sign-combination form), translated line by line from the source. -/
def is_point_inside_circumcircle (t : Triangle) (q : Vector) : Bool :=
  let x02 := t.v0.x - t.v2.x
  let x12 := t.v1.x - t.v2.x
  let x0p := t.v0.x - q.x
  let x1p := t.v1.x - q.x
  let y02 := t.v0.y - t.v2.y
  let y12 := t.v1.y - t.v2.y
  let y0p := t.v0.y - q.y
  let y1p := t.v1.y - q.y
  let cosa := x02 * x12 + y02 * y12
  let cosb := x0p * x1p + y0p * y1p
  if 0 ≤ cosa ∧ 0 ≤ cosb then false
  else if cosa < 0 ∧ cosb < 0 then true
  else
    let sina := x02 * y12 - x12 * y02
    let sinb := x1p * y0p - x0p * y1p
    if sina * cosb + sinb * cosa < 0 then true else false

/-- Model of `math_utils::calculate_matrix3x3_determinant`. -/
def calculate_matrix3x3_determinant (m00 m10 m20 m01 m11 m21 m02 m12 m22 : ℚ) : ℚ :=
  m00 * m11 * m22 + m10 * m21 * m02 + m20 * m01 * m12
    - m20 * m11 * m02 - m10 * m01 * m22 - m00 * m21 * m12

/-- Model of `math_utils::is_triangle_vertices_cw`. -/
def is_triangle_vertices_cw (p0 p1 p2 : Vector) : Bool :=
  calculate_matrix3x3_determinant p0.x p0.y 1 p1.x p1.y 1 p2.x p2.y 1 < 0

/-- Model of `math_utils::is_quadrilateral_convex` (six admissible
sign patterns of the four sub-triangles). -/
def is_quadrilateral_convex (a b c d : Vector) : Bool :=
  let abc := is_triangle_vertices_cw a b c
  let abd := is_triangle_vertices_cw a b d
  let bcd := is_triangle_vertices_cw b c d
  let cad := is_triangle_vertices_cw c a d
  if abc && abd && bcd && !cad then true
  else if abc && abd && !bcd && cad then true
  else if abc && !abd && bcd && cad then true
  else if !abc && !abd && !bcd && cad then true
  else if !abc && !abd && bcd && !cad then true
  else if !abc && abd && !bcd && !cad then true
  else false

/-- Model of `math_utils::calculate_triangle_area` (signed, no absolute
value in the source). -/
def calculate_triangle_area (t : Triangle) : ℚ :=
  Vector.cross_product (Vector.sub (t.p 1) (t.p 0)) (Vector.sub (t.p 2) (t.p 0)) * (1 / 2)

/-- The exact rational value of `f32::MAX`. -/
def f32MAX : ℚ := (2 ^ 24 - 1) * 2 ^ 104

/-- The exact rational value of `f32::MIN`. -/
def f32MIN : ℚ := -f32MAX

/-- Model of `math_utils::intersection_between_lines`. -/
def intersection_between_lines (a1 b1 a2 b2 : Vector) : Option Vector :=
  let isLine1Vertical := b1.x = a1.x
  let isLine2Vertical := b2.x = a2.x
  let compute : Option (ℚ × ℚ) :=
    if isLine1Vertical ∧ ¬ isLine2Vertical then
      let m2 := (b2.y - a2.y) / (b2.x - a2.x)
      let c2 := a2.x * m2 - a2.y
      some (a1.x, m2 * a1.x - c2)
    else if isLine2Vertical ∧ ¬ isLine1Vertical then
      let m1 := (b1.y - a1.y) / (b1.x - a1.x)
      let c1 := a1.x * m1 - a1.y
      some (a2.x, m1 * a2.x - c1)
    else if ¬ isLine1Vertical ∧ ¬ isLine2Vertical then
      let m1 := (b1.y - a1.y) / (b1.x - a1.x)
      let c1 := a1.x * m1 - a1.y
      let m2 := (b2.y - a2.y) / (b2.x - a2.x)
      let c2 := a2.x * m2 - a2.y
      let determinant := m1 * (-1 : ℚ) - m2 * (-1 : ℚ)
      if determinant = 0 then none
      else some (((-1 : ℚ) * c1 - (-1 : ℚ) * c2) / determinant,
                 (m1 * c2 - m2 * c1) / determinant)
    else
      -- both segments vertical: x and y keep their initial `f32::MAX` values
      some (f32MAX, f32MAX)
  match compute with
  | none => none
  | some (x, y) =>
    if x ≤ max a1.x b1.x ∧ min a1.x b1.x ≤ x ∧
       y ≤ max a1.y b1.y ∧ min a1.y b1.y ≤ y ∧
       x ≤ max a2.x b2.x ∧ min a2.x b2.x ≤ x ∧
       y ≤ max a2.y b2.y ∧ min a2.y b2.y ≤ y
    then some ⟨x, y⟩ else none

/-- Model of `data_structures/error.rs`. -/
inductive CustomError where
  | PointNotInTriangle
  | SwappingFailed
  | TrianglesDontShareIndex
  | TesselationFailed
  | EdgeNotFoundInTriangles (a b : ℕ)
  | PolygonIsOpen
deriving DecidableEq, Repr

/-- Model of `data_structures/found_or_added.rs`. -/
inductive FoundOrAdded where
  | Found (idx : ℕ)
  | Added (idx : ℕ)
deriving DecidableEq, Repr

/-- Accessor `FoundOrAdded::value`. -/
def FoundOrAdded.value : FoundOrAdded → ℕ
  | .Found idx => idx
  | .Added idx => idx

/-- Model of `data_structures/edge.rs`. -/
structure Edge where
  edge_vertex_a : ℕ
  edge_vertex_b : ℕ
deriving DecidableEq, Repr

/-- Model of `data_structures/edge_info.rs`. -/
structure EdgeInfo where
  triangle_index : ℕ
  edge_index : Fin 3
  edge_vertex_a : ℕ
  edge_vertex_b : ℕ
deriving DecidableEq, Repr

/-- Model of `data_structures/triangle_info.rs`: three vertex indices into
the point array (`vertex_indices: [usize; 3]`) and three optional
adjacent-triangle indices (`adjacent_triangle_indices: [Option<usize>; 3]`),
stored as explicit fields.  The source's array accesses at position
`(i + k) % 3` become the accessors below applied at the cyclic `+ k` of
`Fin 3`. -/
structure TriangleInfo where
  v0 : ℕ
  v1 : ℕ
  v2 : ℕ
  a0 : Option ℕ
  a1 : Option ℕ
  a2 : Option ℕ
deriving DecidableEq, Repr

/-- Read `vertex_indices[i]`. -/
def TriangleInfo.vertexIndices (t : TriangleInfo) : Fin 3 → ℕ :=
  fun i => match i with | 0 => t.v0 | 1 => t.v1 | 2 => t.v2

/-- Read `adjacent_triangle_indices[i]`. -/
def TriangleInfo.adjacentTriangleIndices (t : TriangleInfo) : Fin 3 → Option ℕ :=
  fun i => match i with | 0 => t.a0 | 1 => t.a1 | 2 => t.a2

/-- Write `vertex_indices[i]`. -/
def TriangleInfo.setVertex (t : TriangleInfo) (i : Fin 3) (v : ℕ) : TriangleInfo :=
  match i with
  | 0 => { t with v0 := v }
  | 1 => { t with v1 := v }
  | 2 => { t with v2 := v }

/-- Write `adjacent_triangle_indices[i]`. -/
def TriangleInfo.setAdjacent (t : TriangleInfo) (i : Fin 3) (a : Option ℕ) : TriangleInfo :=
  match i with
  | 0 => { t with a0 := a }
  | 1 => { t with a1 := a }
  | 2 => { t with a2 := a }

/-- Constructor `TriangleInfo::new`: adjacency starts as `[None; 3]`. -/
def TriangleInfo.new (v0 v1 v2 : ℕ) : TriangleInfo :=
  ⟨v0, v1, v2, none, none, none⟩

/-- Builder `TriangleInfo::with_adjacent`. -/
def TriangleInfo.with_adjacent (t : TriangleInfo) (a0 a1 a2 : Option ℕ) : TriangleInfo :=
  { t with a0 := a0, a1 := a1, a2 := a2 }

/-- The value read by the embedding when the source would index a triangle
list out of bounds (the source would panic; the well-formedness hypotheses
and the concrete runs of the theorems below keep every such access in
bounds). -/
def defaultTriangleInfo : TriangleInfo :=
  ⟨0, 0, 0, none, none, none⟩

/-- Model of `data_structures/triangle_set.rs::TriangleSet`. -/
structure TriangleSet where
  points : List Vector
  triangle_infos : List TriangleInfo
deriving DecidableEq

/-- Constructor `TriangleSet::new` (capacity only; no observable state). -/
def TriangleSet.new : TriangleSet := ⟨[], []⟩

/-- Accessor `TriangleSet::triangle_count`. -/
def TriangleSet.triangle_count (ts : TriangleSet) : ℕ := ts.triangle_infos.length

/-- Accessor `TriangleSet::get_triangle_info`. -/
def TriangleSet.get_triangle_info (ts : TriangleSet) (i : ℕ) : TriangleInfo :=
  ts.triangle_infos.getD i defaultTriangleInfo

/-- Accessor `TriangleSet::get_point_from_vertex` (also `get_point`). -/
def TriangleSet.get_point_from_vertex (ts : TriangleSet) (v : ℕ) : Vector :=
  ts.points.getD v ⟨0, 0⟩

/-- Accessor `TriangleSet::get_point_from_index`. -/
def TriangleSet.get_point_from_index (ts : TriangleSet) (t : ℕ) (i : Fin 3) : Vector :=
  ts.get_point_from_vertex ((ts.get_triangle_info t).vertexIndices i)

/-- Accessor `TriangleSet::get_adjacent_triangle_index`. -/
def TriangleSet.get_adjacent_triangle_index (ts : TriangleSet) (t : ℕ) (i : Fin 3) : Option ℕ :=
  (ts.get_triangle_info t).adjacentTriangleIndices i

/-- Accessor `TriangleSet::get_triangle` (the three points by value). -/
def TriangleSet.get_triangle (ts : TriangleSet) (t : ℕ) : Triangle :=
  ⟨ts.get_point_from_index t 0, ts.get_point_from_index t 1, ts.get_point_from_index t 2⟩

/-- Model of `TriangleSet::add_point`: linear scan for an equal point,
append otherwise. -/
def TriangleSet.add_point (ts : TriangleSet) (p : Vector) : FoundOrAdded × TriangleSet :=
  match ts.points.findIdx? (fun q => q == p) with
  | some idx => (.Found idx, ts)
  | none => (.Added ts.points.length, { ts with points := ts.points ++ [p] })

/-- Model of `TriangleSet::add_triangle` (used for the supertriangle). -/
def TriangleSet.add_triangle (ts : TriangleSet) (t : Triangle) : TriangleSet :=
  let (r0, ts0) := ts.add_point t.v0
  let (r1, ts1) := ts0.add_point t.v1
  let (r2, ts2) := ts1.add_point t.v2
  { ts2 with triangle_infos := ts2.triangle_infos ++
      [TriangleInfo.new r0.value r1.value r2.value] }

/-- Model of `TriangleSet::add_triangle_info`: append, return the index. -/
def TriangleSet.add_triangle_info (ts : TriangleSet) (info : TriangleInfo) :
    ℕ × TriangleSet :=
  (ts.triangle_infos.length, { ts with triangle_infos := ts.triangle_infos ++ [info] })

/-- Model of `TriangleSet::replace_adjacent`: every adjacency slot equal to
`old` is overwritten with `new`. -/
def TriangleSet.replace_adjacent (ts : TriangleSet) (t : ℕ)
    (old new : Option ℕ) : TriangleSet :=
  match ts.triangle_infos.get? t with
  | none => ts
  | some info =>
    let info' : TriangleInfo :=
      { info with
        a0 := if info.a0 = old then new else info.a0,
        a1 := if info.a1 = old then new else info.a1,
        a2 := if info.a2 = old then new else info.a2 }
    { ts with triangle_infos := ts.triangle_infos.set t info' }

/-- Model of `TriangleSet::replace_triangle`: overwrite vertices and
adjacency of a stored triangle. -/
def TriangleSet.replace_triangle (ts : TriangleSet) (t : ℕ) (info : TriangleInfo) :
    TriangleSet :=
  { ts with triangle_infos := ts.triangle_infos.set t info }

/-- Assignment `triangle_infos[t].vertex_indices[i] = v` of the source. -/
def TriangleSet.set_vertex (ts : TriangleSet) (t : ℕ) (i : Fin 3) (v : ℕ) : TriangleSet :=
  match ts.triangle_infos.get? t with
  | none => ts
  | some info =>
    { ts with triangle_infos := ts.triangle_infos.set t (info.setVertex i v) }

/-- Assignment `triangle_infos[t].adjacent_triangle_indices[i] = a` of the
source. -/
def TriangleSet.set_adjacent (ts : TriangleSet) (t : ℕ) (i : Fin 3) (a : Option ℕ) :
    TriangleSet :=
  match ts.triangle_infos.get? t with
  | none => ts
  | some info =>
    { ts with triangle_infos := ts.triangle_infos.set t (info.setAdjacent i a) }

/-- Model of `TriangleSet::find_edge_info_for_vertices` (called
`find_edge_info_for_triangle` at its call sites): the first triangle, in
index order, holding the directed edge `a → b`, scanning the edges of each
triangle in the order 0, 1, 2. -/
def TriangleSet.find_edge_info_for_vertices (ts : TriangleSet) (a b : ℕ) :
    Option EdgeInfo :=
  go 0 ts.triangle_infos
where
  scanTriangle (i : ℕ) (info : TriangleInfo) : Option EdgeInfo :=
    if info.vertexIndices 0 = a ∧ info.vertexIndices 1 = b then
      some ⟨i, 0, a, b⟩
    else if info.vertexIndices 1 = a ∧ info.vertexIndices 2 = b then
      some ⟨i, 1, a, b⟩
    else if info.vertexIndices 2 = a ∧ info.vertexIndices 0 = b then
      some ⟨i, 2, a, b⟩
    else none
  go (i : ℕ) : List TriangleInfo → Option EdgeInfo
    | [] => none
    | info :: rest =>
      match scanTriangle i info with
      | some e => some e
      | none => go (i + 1) rest

/-- Model of `TriangleSet::get_triangle_indices_with_vertex`. -/
def TriangleSet.get_triangle_indices_with_vertex (ts : TriangleSet) (v : ℕ) : List ℕ :=
  go 0 ts.triangle_infos
where
  go (i : ℕ) : List TriangleInfo → List ℕ
    | [] => []
    | info :: rest =>
      if info.vertexIndices 0 = v ∨ info.vertexIndices 1 = v ∨ info.vertexIndices 2 = v
      then i :: go (i + 1) rest
      else go (i + 1) rest

/-- Model of `normalize.rs::Bounds`. -/
structure Bounds where
  min : Vector
  max : Vector
deriving DecidableEq, Repr

/-- One step of the bounds fold of `normalize_points` when no bounds are
supplied: starting from `(f32::MAX, f32::MAX)` / `(f32::MIN, f32::MIN)`,
widen by one point. -/
def updateBounds (b : Bounds) (p : Vector) : Bounds :=
  { min := ⟨if p.x < b.min.x then p.x else b.min.x,
            if p.y < b.min.y then p.y else b.min.y⟩,
    max := ⟨if p.x > b.max.x then p.x else b.max.x,
            if p.y > b.max.y then p.y else b.max.y⟩ }

/-- The whole fold over the point list, starting from the sentinel bounds. -/
def computeBounds (points : List Vector) : Bounds :=
  points.foldl updateBounds ⟨⟨f32MAX, f32MAX⟩, ⟨f32MIN, f32MIN⟩⟩

/-- Model of `normalize.rs::normalize_points`: map every point through
`(p - min) / (max - min)` componentwise, with the bounds either given or
computed from the points themselves. -/
def normalize_points (points : List Vector) (bounds : Option Bounds) :
    List Vector × Bounds :=
  let b := match bounds with
    | some b => b
    | none => computeBounds points
  (points.map (fun p => (p.sub b.min).divV (b.max.sub b.min)), b)

/-- Model of `normalize.rs::denormalize_points`. -/
def denormalize_points (points : List Vector) (b : Bounds) : List Vector :=
  points.map (fun p => (p.mulV (b.max.sub b.min)).add b.min)

/-- One iteration of the `while` body of
`TriangleSet::find_triangle_that_contains_point`: scan the three edges in
order; the point is found when it is not strictly to the right of any edge;
otherwise the walk moves across the first right-of edge that has a
neighbour (an edge without a neighbour only clears the found flag). -/
def TriangleSet.ftcpScan (ts : TriangleSet) (p : Vector) (t : ℕ) : Bool × ℕ :=
  let r : Fin 3 → Bool := fun i =>
    is_point_to_the_right_of_edge (ts.get_point_from_index t i)
      (ts.get_point_from_index t (i + 1)) p
  let found := !(r 0 || r 1 || r 2)
  let next :=
    if r 0 ∧ (ts.get_adjacent_triangle_index t 0).isSome then
      (ts.get_adjacent_triangle_index t 0).getD t
    else if r 1 ∧ (ts.get_adjacent_triangle_index t 1).isSome then
      (ts.get_adjacent_triangle_index t 1).getD t
    else if r 2 ∧ (ts.get_adjacent_triangle_index t 2).isSome then
      (ts.get_adjacent_triangle_index t 2).getD t
    else t
  (found, next)

/-- The `while !is_triangle_found && checked_triangles < self.triangle_count()`
loop, with `fuel = triangle_count - checked_triangles` as the decreasing
measure.  Returns the found flag, the final triangle index and the
remaining fuel (so the source's final `checked_triangles` equals
`triangle_count - remaining`). -/
def TriangleSet.ftcpLoop (ts : TriangleSet) (p : Vector) : ℕ → ℕ → Bool × ℕ × ℕ
  | 0, t => (false, t, 0)
  | fuel + 1, t =>
    let (found, next) := ts.ftcpScan p t
    if found then (true, t, fuel)
    else ts.ftcpLoop p fuel next

/-- Model of `TriangleSet::find_triangle_that_contains_point`.  The source
returns the error exactly when `checked_triangles >= triangle_count` and
`triangle_count > 1` hold at loop exit, which in fuel form is
`remaining = 0 ∧ 1 < triangle_count`. -/
def TriangleSet.find_triangle_that_contains_point (ts : TriangleSet) (p : Vector)
    (start_triangle : ℕ) : Except CustomError ℕ :=
  let n := ts.triangle_count
  let res := ts.ftcpLoop p n start_triangle
  if res.2.2 = 0 ∧ 1 < n then .error .PointNotInTriangle else .ok res.2.1

/-- Model of `triangulation.rs::TriangleIndexPair`. -/
structure TriangleIndexPair where
  adjacent : ℕ
  current : ℕ
deriving DecidableEq, Repr

/-- The first index of `adjacent_info.vertex_indices` holding
`shared_vertex` (the `for idx in 0..3` search of `swap_edges`, whose
out-of-bounds sentinel 4 becomes `none`). -/
def firstIndexOfVertex (info : TriangleInfo) (v : ℕ) : Option (Fin 3) :=
  if info.vertexIndices 0 = v then some 0
  else if info.vertexIndices 1 = v then some 1
  else if info.vertexIndices 2 = v then some 2
  else none

/-- Model of `triangulation.rs::swap_edges`, the edge-flip primitive.
Mirrors the source statement by statement; returns the two outward
neighbours together with the updated mesh. -/
def swap_edges (ts : TriangleSet) (index_pair : TriangleIndexPair)
    (shared_vertex_index : Fin 3) :
    Except CustomError ((Option ℕ × Option ℕ) × TriangleSet) :=
  let current_info := ts.get_triangle_info index_pair.current
  let adjacent_info := ts.get_triangle_info index_pair.adjacent
  let p := current_info.vertexIndices (shared_vertex_index + 2)
  let p2 := current_info.vertexIndices (shared_vertex_index + 1)
  let shared_vertex := current_info.vertexIndices shared_vertex_index
  match firstIndexOfVertex adjacent_info shared_vertex with
  | none => .error .TrianglesDontShareIndex
  | some adj_shared_vertex_index =>
    let first_new_adjacent := adjacent_info.adjacentTriangleIndices adj_shared_vertex_index
    let second_new_adjacent := adjacent_info.adjacentTriangleIndices (adj_shared_vertex_index + 1)
    let opposite_vertex := adjacent_info.vertexIndices (adj_shared_vertex_index + 1)
    let a2 := current_info.adjacentTriangleIndices (shared_vertex_index + 1)
    let new_adjacent := (TriangleInfo.new p opposite_vertex p2).with_adjacent
      (some index_pair.current) second_new_adjacent a2
    let ts1 := ts.replace_triangle index_pair.adjacent new_adjacent
    let new_current := (TriangleInfo.new p shared_vertex opposite_vertex).with_adjacent
      (current_info.adjacentTriangleIndices (shared_vertex_index + 2))
      first_new_adjacent (some index_pair.adjacent)
    let ts2 := ts1.replace_triangle index_pair.current new_current
    let ts3 := match first_new_adjacent with
      | some needs_replacement_index =>
        ts2.replace_adjacent needs_replacement_index
          (some index_pair.adjacent) (some index_pair.current)
      | none => ts2
    let ts4 := match a2 with
      | some needs_replacement_index =>
        ts3.replace_adjacent needs_replacement_index
          (some index_pair.current) (some index_pair.adjacent)
      | none => ts3
    .ok ((first_new_adjacent, second_new_adjacent), ts4)

/-- Steps 5 and 5.1 of `triangulation.rs::triangulate_point` (lines
211-262): split the containing triangle into three triangles sharing the
inserted point as vertex 0 and fix the adjacency of the outer neighbours.
Returns the indices of the two new triangles and the updated mesh. -/
def insert_point_in_triangle (ts : TriangleSet)
    (containing_triangle_index inserted_point_index : ℕ) :
    ℕ × ℕ × TriangleSet :=
  let containing_triangle := ts.get_triangle_info containing_triangle_index
  let first_triangle := (TriangleInfo.new inserted_point_index
      (containing_triangle.vertexIndices 0)
      (containing_triangle.vertexIndices 1)).with_adjacent
    none
    (containing_triangle.adjacentTriangleIndices 0)
    (some containing_triangle_index)
  let (first_triangle_index, ts1) := ts.add_triangle_info first_triangle
  let second_triangle := (TriangleInfo.new inserted_point_index
      (containing_triangle.vertexIndices 2)
      (containing_triangle.vertexIndices 0)).with_adjacent
    (some containing_triangle_index)
    (containing_triangle.adjacentTriangleIndices 2)
    (some first_triangle_index)
  let (second_triangle_index, ts2) := ts1.add_triangle_info second_triangle
  let ts3 := ts2.set_adjacent first_triangle_index 0 (some second_triangle_index)
  let ts4 := match first_triangle.adjacentTriangleIndices 1 with
    | some adjacent_triangle =>
      ts3.replace_adjacent adjacent_triangle
        (some containing_triangle_index) (some first_triangle_index)
    | none => ts3
  let ts5 := match second_triangle.adjacentTriangleIndices 1 with
    | some adjacent_triangle =>
      ts4.replace_adjacent adjacent_triangle
        (some containing_triangle_index) (some second_triangle_index)
    | none => ts4
  let ts6 := ts5.set_vertex containing_triangle_index 0 inserted_point_index
  let ts7 := ts6.set_adjacent containing_triangle_index 0 (some first_triangle_index)
  let ts8 := ts7.set_adjacent containing_triangle_index 2 (some second_triangle_index)
  (first_triangle_index, second_triangle_index, ts8)

/-- Step 7 of `triangulate_point`: the Delaunay-restoration stack loop.
The stack is a LIFO list whose head is the top; the source's
`Vec::push`/`Vec::pop` pairs map to cons/uncons.  Fuel bounds the loop,
which has no structural measure in the source; `none` is fuel exhaustion. -/
def delaunay_flip_loop (point_to_insert : Vector) :
    ℕ → TriangleSet → List TriangleIndexPair →
    Option (Except CustomError Unit × TriangleSet)
  | _, ts, [] => some (.ok (), ts)
  | 0, _, _ :: _ => none
  | fuel + 1, ts, index_pair :: rest =>
    if is_point_inside_circumcircle (ts.get_triangle index_pair.adjacent) point_to_insert then
      match swap_edges ts index_pair 1 with
      | .error _ => some (.error .SwappingFailed, ts)
      | .ok ((first_new_adjacent, second_new_adjacent), ts') =>
        let rest1 := match second_new_adjacent with
          | some new_opposite_index => ⟨new_opposite_index, index_pair.adjacent⟩ :: rest
          | none => rest
        let rest2 := match first_new_adjacent with
          | some new_opposite_index => ⟨new_opposite_index, index_pair.current⟩ :: rest1
          | none => rest1
        delaunay_flip_loop point_to_insert fuel ts' rest2
    else
      delaunay_flip_loop point_to_insert fuel ts rest

/-- Model of `triangulation.rs::triangulate_point`.  Returns `none` only on
fuel exhaustion of the flip stack (the source loop is unbounded). -/
def triangulate_point (ts : TriangleSet) (point_to_insert : Vector) (fuel : ℕ) :
    Option (Except CustomError FoundOrAdded × TriangleSet) :=
  match ts.add_point point_to_insert with
  | (.Found idx, tsA) => some (.ok (.Found idx), tsA)
  | (.Added inserted_point_index, tsA) =>
    match tsA.find_triangle_that_contains_point point_to_insert (tsA.triangle_count - 1) with
    | .error _ => some (.error .PointNotInTriangle, tsA)
    | .ok containing_triangle_index =>
      let containing_triangle := tsA.get_triangle_info containing_triangle_index
      let (first_triangle_index, second_triangle_index, ts2) :=
        insert_point_in_triangle tsA containing_triangle_index inserted_point_index
      let pushContaining : List TriangleIndexPair :=
        match containing_triangle.adjacentTriangleIndices 1 with
        | some adjacent_index => [⟨adjacent_index, containing_triangle_index⟩]
        | none => []
      let pushFirst : List TriangleIndexPair :=
        match containing_triangle.adjacentTriangleIndices 0 with
        | some adjacent_index => [⟨adjacent_index, first_triangle_index⟩]
        | none => []
      let pushSecond : List TriangleIndexPair :=
        match containing_triangle.adjacentTriangleIndices 2 with
        | some adjacent_index => [⟨adjacent_index, second_triangle_index⟩]
        | none => []
      let index_pairs := pushSecond ++ pushFirst ++ pushContaining
      match delaunay_flip_loop point_to_insert fuel ts2 index_pairs with
      | none => none
      | some (.error e, ts3) => some (.error e, ts3)
      | some (.ok (), ts3) => some (.ok (.Added inserted_point_index), ts3)

/-- Model of `triangulation.rs::tesselate`, the area-refinement walk,
with explicit fuel for the outer `while` loop (the source loop has no
structural measure).  `maximum_triangle_area` is the threshold, `pfuel`
the flip-stack fuel of the three midpoint insertions.  A result of `none`
for every fuel value means the source loop never terminates. -/
def tesselate_loop (maximum_triangle_area : ℚ) (pfuel : ℕ) :
    ℕ → TriangleSet → ℕ → Option (Except CustomError TriangleSet)
  | 0, _, _ => none
  | fuel + 1, ts, triangle_index =>
    if triangle_index < ts.triangle_count then
      let triangle_info := ts.get_triangle_info triangle_index
      let is_supertriangle :=
        triangle_info.vertexIndices 0 = 0 ∨ triangle_info.vertexIndices 0 = 1 ∨
        triangle_info.vertexIndices 0 = 2 ∨
        triangle_info.vertexIndices 1 = 0 ∨ triangle_info.vertexIndices 1 = 1 ∨
        triangle_info.vertexIndices 1 = 2 ∨
        triangle_info.vertexIndices 2 = 0 ∨ triangle_info.vertexIndices 2 = 1 ∨
        triangle_info.vertexIndices 2 = 2
      if is_supertriangle then
        -- the source's `continue` re-enters the loop with `triangle_index` unchanged
        tesselate_loop maximum_triangle_area pfuel fuel ts triangle_index
      else
        let triangle := ts.get_triangle triangle_index
        let triangle_area := calculate_triangle_area triangle
        if maximum_triangle_area < triangle_area then
          match triangulate_point ts
              ((triangle.p 0).add ((Vector.sub (triangle.p 1) (triangle.p 0)).mulS (1 / 2)))
              pfuel with
          | none => none
          | some (.error _, _) => some (.error .TesselationFailed)
          | some (.ok _, tsA) =>
            match triangulate_point tsA
                ((triangle.p 1).add ((Vector.sub (triangle.p 2) (triangle.p 1)).mulS (1 / 2)))
                pfuel with
            | none => none
            | some (.error _, _) => some (.error .TesselationFailed)
            | some (.ok _, tsB) =>
              match triangulate_point tsB
                  ((triangle.p 2).add ((Vector.sub (triangle.p 0) (triangle.p 2)).mulS (1 / 2)))
                  pfuel with
              | none => none
              | some (.error _, _) => some (.error .TesselationFailed)
              | some (.ok _, tsC) =>
                -- `triangle_index = 2` then the loop-footer `triangle_index += 1`
                tesselate_loop maximum_triangle_area pfuel fuel tsC (2 + 1)
        else
          tesselate_loop maximum_triangle_area pfuel fuel ts (triangle_index + 1)
    else
      some (.ok ts)

/-- Model of `hole_creation.rs::get_supertriangle_triangles`: mark every
triangle incident to one of the supertriangle vertices 0, 1, 2. -/
def get_supertriangle_triangles (ts : TriangleSet) (output_triangles : List ℕ) : List ℕ :=
  [0, 1, 2].foldl
    (fun acc i =>
      (ts.get_triangle_indices_with_vertex i).foldl
        (fun acc2 t => if acc2.contains t then acc2 else acc2 ++ [t]) acc)
    output_triangles

/-- Model of `data_structures/point_bin_grid.rs::PointBinGrid` (unit grid
size, as constructed by the triangulation driver). -/
structure PointBinGrid where
  cells : List (List Vector)
  cells_per_side : ℕ

/-- Constructor `PointBinGrid::new`. -/
def PointBinGrid.new (cells_per_side : ℕ) : PointBinGrid :=
  ⟨List.replicate (cells_per_side * cells_per_side) [], cells_per_side⟩

/-- Model of `PointBinGrid::add_point`: boustrophedon bin index from the
floor of the 0.99-shrunk scaled coordinates.  The `as usize` cast of a
non-negative `f32` is the floor; grid size is 1. -/
def PointBinGrid.add_point (g : PointBinGrid) (new_point : Vector) : PointBinGrid :=
  let row_index := ((99 : ℚ) / 100 * g.cells_per_side * new_point.y).floor.toNat
  let column_index := ((99 : ℚ) / 100 * g.cells_per_side * new_point.x).floor.toNat
  let bin_index :=
    if row_index % 2 = 0 then row_index * g.cells_per_side + column_index
    else (row_index + 1) * g.cells_per_side - column_index - 1
  { g with cells := g.cells.set bin_index (g.cells.getD bin_index [] ++ [new_point]) }

/-- The grid side `(input_points.len() as f32).powf(1. / 4.).round()` of
the driver: the integer nearest to the real fourth root of `n` (the
`f32` computation agrees with the exact one on all inputs whose fourth
root is not extremely close to a rounding boundary; ties round up here). -/
def fourthRootRounded (n : ℕ) : ℕ :=
  ((List.range (n + 2)).filter (fun k => 16 * n < (2 * k + 1) ^ 4)).headD 0

/-- Result type separating the two non-value outcomes of the embedding:
a panic of the source (`unwrap`/`expect` on `None`, arithmetic underflow)
and exhaustion of the fuel of a source loop that has no structural bound. -/
inductive PanicOr (α : Type) where
  | panicked
  | fuelExhausted
  | ok (val : α)
deriving DecidableEq, Repr

/-- The per-cell, per-point insertion loop of the driver (steps 4-7). -/
def insert_points (pfuel : ℕ) : TriangleSet → List Vector →
    Option (Except CustomError TriangleSet)
  | ts, [] => some (.ok ts)
  | ts, p :: rest =>
    match triangulate_point ts p pfuel with
    | none => none
    | some (.error e, _) => some (.error e)
    | some (.ok _, ts') => insert_points pfuel ts' rest

/-- Model of `triangulation.rs::get_triangles_discarding_holes`: emit the
stored triangles by value, skipping the (sorted) removal indices by
walking both lists simultaneously. -/
def get_triangles_discarding_holes (ts : TriangleSet) (triangles_to_remove : List ℕ) :
    List Triangle :=
  go ts.triangle_infos 0 0
where
  go : List TriangleInfo → ℕ → ℕ → List Triangle
    | [], _, _ => []
    | triangle_info :: rest, idx, idxs_i =>
      if triangles_to_remove.get? idxs_i = some idx then
        go rest (idx + 1) (idxs_i + 1)
      else
        ⟨ts.get_point_from_vertex (triangle_info.vertexIndices 0),
         ts.get_point_from_vertex (triangle_info.vertexIndices 1),
         ts.get_point_from_vertex (triangle_info.vertexIndices 2)⟩ :: go rest (idx + 1) idxs_i

/-- Model of `triangulation.rs::triangulate` with `holes = None`, split
into the insertion phase (`triangulate`) and the tail from the optional
tessellation to the output assembly (`triangulate_finish`).  `pfuel`
bounds each flip stack, `tfuel` the tessellation walk.  The
`TriangleSet::new(input_points.len() - 2)` capacity computation underflows
`usize` for fewer than two points: that is the `panicked` outcome.  In the
no-holes branch the call marking the supertriangle triangles is commented
out in the source, so the removal list stays empty. -/
def triangulate_finish (bounds : Bounds) (maximum_triangle_area : Option ℚ)
    (pfuel tfuel : ℕ) (ts1 : TriangleSet) :
    PanicOr (Except CustomError (List Triangle)) :=
  let after_tesselate : Option (Except CustomError TriangleSet) :=
    match maximum_triangle_area with
    | some m => tesselate_loop m pfuel tfuel ts1 2
    | none => some (.ok ts1)
  match after_tesselate with
  | none => .fuelExhausted
  | some (.error e) => .ok (.error e)
  | some (.ok ts2) =>
    let triangles_to_remove : List ℕ := []
    let ts3 := { ts2 with points := denormalize_points ts2.points bounds }
    .ok (.ok (get_triangles_discarding_holes ts3 triangles_to_remove))

/-- The driver itself. -/
def triangulate (input_points : List Vector) (maximum_triangle_area : Option ℚ)
    (pfuel tfuel : ℕ) : PanicOr (Except CustomError (List Triangle)) :=
  if input_points.length < 2 then .panicked
  else
    let (normalized_points, bounds) := normalize_points input_points none
    let grid := normalized_points.foldl PointBinGrid.add_point
      (PointBinGrid.new (fourthRootRounded input_points.length))
    let ts0 := TriangleSet.new.add_triangle ⟨⟨-100, -100⟩, ⟨100, -100⟩, ⟨0, 100⟩⟩
    match insert_points pfuel ts0 grid.cells.flatten with
    | none => .fuelExhausted
    | some (.error e) => .ok (.error e)
    | some (.ok ts1) => triangulate_finish bounds maximum_triangle_area pfuel tfuel ts1

/-- Model of
`TriangleSet::find_triangle_that_contains_edge_start_and_intersects`:
among the triangles incident to vertex `endpoint_a_index`, the first whose
two edges at that vertex bracket the ray toward `endpoint_b_index`.  The
source returns a bare `usize` and panics (`expect`) when no triangle
qualifies, and panics (`unwrap`) if a listed triangle does not hold the
vertex; both panics are `PanicOr.panicked`. -/
def TriangleSet.find_triangle_that_contains_edge_start_and_intersects
    (ts : TriangleSet) (endpoint_a_index endpoint_b_index : ℕ) : PanicOr ℕ :=
  go (ts.get_triangle_indices_with_vertex endpoint_a_index)
where
  go : List ℕ → PanicOr ℕ
    | [] => .panicked
    | t :: rest =>
      match firstIndexOfVertex (ts.get_triangle_info t) endpoint_a_index with
      | none => .panicked
      | some vertex_position_in_triangle =>
        let triangle_edge_point1 := ts.get_point_from_vertex
          ((ts.get_triangle_info t).vertexIndices (vertex_position_in_triangle + 1))
        let triangle_edge_point2 := ts.get_point_from_vertex
          ((ts.get_triangle_info t).vertexIndices (vertex_position_in_triangle + 2))
        let endpoint_a := ts.get_point_from_vertex endpoint_a_index
        let endpoint_b := ts.get_point_from_vertex endpoint_b_index
        if is_point_to_the_left_of_edge endpoint_a triangle_edge_point1 endpoint_b ∧
           is_point_to_the_left_of_edge triangle_edge_point2 endpoint_a endpoint_b then
          .ok t
        else go rest

/-- Outcome of the inner `for i in 0..3` scan of
`TriangleSet::get_intersecting_edges`. -/
inductive IntersectScan where
  | foundB (deque : List Edge)
  | crossed (deque : List Edge) (next : ℕ)
  | hitNoneAdjacent
  | scanDone (deque : List Edge) (tentative : Option (Fin 3))

/-- Model of `TriangleSet::get_intersecting_edges`.  The deque is a list
whose last element is the back.  The source's two `unwrap`/`expect` calls
on `None` adjacency are the `panicked` outcome; the `while` loop has no
structural bound, hence the fuel. -/
def TriangleSet.get_intersecting_edges (ts : TriangleSet)
    (line_endpoint_a line_endpoint_b : Vector) (start_triangle : ℕ)
    (fuel : ℕ) : PanicOr (List Edge) :=
  loop fuel start_triangle []
where
  inner (t : ℕ) : List (Fin 3) → List Edge → Option (Fin 3) → IntersectScan
    | [], deque, tentative => .scanDone deque tentative
    | i :: is, deque, tentative =>
      let edge_vertex_a := (ts.get_triangle_info t).vertexIndices i
      let edge_vertex_b := (ts.get_triangle_info t).vertexIndices (i + 1)
      let current_a := ts.get_point_from_vertex edge_vertex_a
      let current_b := ts.get_point_from_vertex edge_vertex_b
      if current_a = line_endpoint_b ∨ current_b = line_endpoint_b then
        .foundB deque
      else if is_point_to_the_right_of_edge current_a current_b line_endpoint_b then
        if (intersection_between_lines current_a current_b
            line_endpoint_a line_endpoint_b).isSome then
          let new_edge : Edge := ⟨edge_vertex_a, edge_vertex_b⟩
          match deque.getLast? with
          | some temp_edge =>
            if temp_edge = new_edge then
              -- pop then push of the same edge: the deque is unchanged, no break
              inner t is deque (some i)
            else
              match (ts.get_triangle_info t).adjacentTriangleIndices i with
              | some next => .crossed (deque ++ [new_edge]) next
              | none => .hitNoneAdjacent
          | none =>
            match (ts.get_triangle_info t).adjacentTriangleIndices i with
            | some next => .crossed (deque ++ [new_edge]) next
            | none => .hitNoneAdjacent
        else inner t is deque (some i)
      else inner t is deque tentative
  loop : ℕ → ℕ → List Edge → PanicOr (List Edge)
    | 0, _, _ => .fuelExhausted
    | fuel + 1, t, deque =>
      match inner t [0, 1, 2] deque none with
      | .foundB deque' => .ok deque'
      | .hitNoneAdjacent => .panicked
      | .crossed deque' next => loop fuel next deque'
      | .scanDone deque' tentative =>
        match tentative with
        | some i =>
          match (ts.get_triangle_info t).adjacentTriangleIndices i with
          | some next => loop fuel next deque'
          | none => .panicked
        | none => loop fuel t deque'

/-- The four-way edge comparison of `get_triangles_in_polygon`: does the
directed edge `(ea, eb)` match one of the two contiguous outline edges,
flipped or not. -/
def edgeMatchesOutline (ea eb prev_a prev_b next_a next_b : ℕ) : Bool :=
  (ea = prev_a ∧ eb = prev_b) ∨ (ea = prev_b ∧ eb = prev_a) ∨
  (ea = next_a ∧ eb = next_b) ∨ (ea = next_b ∧ eb = next_a)

/-- Model of `TriangleSet::get_triangles_in_polygon` (the hole-marking
pass of `data_structures/triangle_set.rs`).  The outline loop reports
`EdgeNotFoundInTriangles` when a polygon edge has no carrier triangle and
`PolygonIsOpen` when a required neighbour slot is `None`; the subsequent
breadth-first expansion is bounded by `bfs_fuel` (`none` = fuel ran out).
Dedup against the most- and first-recently added carrier and the
"adjacent outline edge" filter follow the source. -/
def TriangleSet.get_triangles_in_polygon (ts : TriangleSet)
    (polygon_outline : List ℕ) (triangles_to_remove : List ℕ) (bfs_fuel : ℕ) :
    Option (Except CustomError (List ℕ)) :=
  match outlineLoop polygon_outline.length 0 triangles_to_remove [] with
  | .error e => some (.error e)
  | .ok (to_remove, adjacent_triangle_indices) =>
    bfsLoop bfs_fuel adjacent_triangle_indices to_remove
where
  outlineLoop : ℕ → ℕ → List ℕ → List ℕ → Except CustomError (List ℕ × List ℕ)
    | 0, _, to_remove, stack => .ok (to_remove, stack)
    | remaining + 1, outline_index, to_remove, stack =>
        let len := polygon_outline.length
        let va := polygon_outline.getD outline_index 0
        let vb := polygon_outline.getD ((outline_index + 1) % len) 0
        match ts.find_edge_info_for_vertices va vb with
        | none => .error (.EdgeNotFoundInTriangles va vb)
        | some edge_in_triangle =>
          let current_triangle := edge_in_triangle.triangle_index
          let current_edge := edge_in_triangle.edge_index
          if 0 < to_remove.length ∧
             (to_remove.getLast? = some current_triangle ∨
              to_remove.head? = some current_triangle) then
            outlineLoop remaining (outline_index + 1) to_remove stack
          else
            let to_remove' := to_remove ++ [current_triangle]
            let prev_a := polygon_outline.getD ((outline_index + len - 1) % len) 0
            let prev_b := polygon_outline.getD outline_index 0
            let next_a := polygon_outline.getD ((outline_index + 1) % len) 0
            let next_b := polygon_outline.getD ((outline_index + 2) % len) 0
            match checkAdjacent current_triangle current_edge 1
                prev_a prev_b next_a next_b to_remove' stack with
            | .error e => .error e
            | .ok stack1 =>
              match checkAdjacent current_triangle current_edge 2
                  prev_a prev_b next_a next_b to_remove' stack1 with
              | .error e => .error e
              | .ok stack2 => outlineLoop remaining (outline_index + 1) to_remove' stack2
  checkAdjacent (current_triangle : ℕ) (current_edge : Fin 3) (adjacent_index : Fin 3)
      (prev_a prev_b next_a next_b : ℕ) (to_remove stack : List ℕ) :
      Except CustomError (List ℕ) :=
    match (ts.get_triangle_info current_triangle).adjacentTriangleIndices
        (current_edge + adjacent_index) with
    | none => .error .PolygonIsOpen
    | some adjacent_triangle =>
      let info := ts.get_triangle_info adjacent_triangle
      let in_outline :=
        edgeMatchesOutline (info.vertexIndices 0) (info.vertexIndices 1)
          prev_a prev_b next_a next_b ||
        edgeMatchesOutline (info.vertexIndices 1) (info.vertexIndices 2)
          prev_a prev_b next_a next_b ||
        edgeMatchesOutline (info.vertexIndices 2) (info.vertexIndices 0)
          prev_a prev_b next_a next_b
      if !in_outline ∧ ¬ to_remove.contains adjacent_triangle then
        .ok (stack ++ [adjacent_triangle])
      else
        .ok stack
  bfsLoop : ℕ → List ℕ → List ℕ → Option (Except CustomError (List ℕ))
    | 0, _, _ => none
    | fuel + 1, stack, to_remove =>
      match stack.getLast? with
      | none => some (.ok to_remove)
      | some adjacent_triangle_index =>
        let rest := stack.dropLast
        if to_remove.contains adjacent_triangle_index then
          bfsLoop fuel rest to_remove
        else
          let info := ts.get_triangle_info adjacent_triangle_index
          let pushes := ([(0 : Fin 3), 1, 2].filterMap
            (fun i => info.adjacentTriangleIndices i)).filter
            (fun a => ¬ to_remove.contains a)
          bfsLoop fuel (rest ++ pushes) (to_remove ++ [adjacent_triangle_index])

/-- Position of the orientation-test walk of
`find_triangle_that_contains_point` after `k` steps from `start`:
each step is one execution of the loop body (`ftcpScan`). -/
def walkPosition (ts : TriangleSet) (p : Vector) (start : ℕ) : ℕ → ℕ
  | 0 => start
  | k + 1 => (ts.ftcpScan p (walkPosition ts p start k)).2

/-- Whether the walk's `k`-th visited triangle contains `p`, i.e. `p` is
not strictly to the right of any of its three edges. -/
def walkFound (ts : TriangleSet) (p : Vector) (start k : ℕ) : Bool :=
  (ts.ftcpScan p (walkPosition ts p start k)).1

/-- Spec §4.1 / claim C9, `cos α = x₀₂·x₁₂ + y₀₂·y₁₂` where
`xᵢⱼ = pᵢ.x − pⱼ.x` over the triangle's vertices. -/
def spec_cos_alpha (t : Triangle) : ℚ :=
  (t.v0.x - t.v2.x) * (t.v1.x - t.v2.x) + (t.v0.y - t.v2.y) * (t.v1.y - t.v2.y)

/-- Spec §4.1 / claim C9, `cos β = x₀ₚ·x₁ₚ + y₀ₚ·y₁ₚ` where
`xᵢₚ = pᵢ.x − q.x` against the query point `q`. -/
def spec_cos_beta (t : Triangle) (q : Vector) : ℚ :=
  (t.v0.x - q.x) * (t.v1.x - q.x) + (t.v0.y - q.y) * (t.v1.y - q.y)

/-- Spec §4.1 / claim C9, `sin α`: the cross product corresponding to
`cos α`. -/
def spec_sin_alpha (t : Triangle) : ℚ :=
  (t.v0.x - t.v2.x) * (t.v1.y - t.v2.y) - (t.v1.x - t.v2.x) * (t.v0.y - t.v2.y)

/-- Spec §4.1 / claim C9, `sin β`: the cross product corresponding to
`cos β` (with the orientation used by the reference algorithm). -/
def spec_sin_beta (t : Triangle) (q : Vector) : ℚ :=
  (t.v1.x - q.x) * (t.v0.y - q.y) - (t.v0.x - q.x) * (t.v1.y - q.y)

/-- The in-circle predicate exactly as the specification words it:
`false` when both cosines are ≥ 0, `true` when both are < 0, otherwise
the sign test `sin α·cos β + sin β·cos α < 0`. -/
def spec_is_point_inside_circumcircle (t : Triangle) (q : Vector) : Bool :=
  if 0 ≤ spec_cos_alpha t ∧ 0 ≤ spec_cos_beta t q then false
  else if spec_cos_alpha t < 0 ∧ spec_cos_beta t q < 0 then true
  else decide (spec_sin_alpha t * spec_cos_beta t q +
               spec_sin_beta t q * spec_cos_alpha t < 0)

/-- Claim C6's invariant: whenever triangle `t`'s adjacency slot for edge
`(vertexIndices i, vertexIndices (i+1))` is `some u`, triangle `u`
contains the reversed edge and `u`'s adjacency slot for that reversed
edge is `some t`. -/
def AdjacencySymmetric (ts : TriangleSet) : Prop :=
  ∀ t, t < ts.triangle_count → ∀ i : Fin 3,
    ∀ u ∈ (ts.get_triangle_info t).adjacentTriangleIndices i,
      ∃ j : Fin 3,
        (ts.get_triangle_info u).vertexIndices j =
          (ts.get_triangle_info t).vertexIndices (i + 1) ∧
        (ts.get_triangle_info u).vertexIndices (j + 1) =
          (ts.get_triangle_info t).vertexIndices i ∧
        (ts.get_triangle_info u).adjacentTriangleIndices j = some t

/-- Auxiliary invariant: the three vertex indices of every stored triangle
are pairwise distinct (spec §3, first mesh invariant). -/
def VertexIndicesDistinct (ts : TriangleSet) : Prop :=
  ∀ t, t < ts.triangle_count → ∀ i j : Fin 3, i ≠ j →
    (ts.get_triangle_info t).vertexIndices i ≠ (ts.get_triangle_info t).vertexIndices j

/-- Auxiliary invariant: no triangle lists the same neighbour on two
different edges (two triangles of a planar mesh share at most one edge). -/
def AdjacencyNoDup (ts : TriangleSet) : Prop :=
  ∀ t, t < ts.triangle_count → ∀ i j : Fin 3, i ≠ j →
    ∀ u, (ts.get_triangle_info t).adjacentTriangleIndices i = some u →
      (ts.get_triangle_info t).adjacentTriangleIndices j ≠ some u

instance (ts : TriangleSet) : Decidable (AdjacencySymmetric ts) := by
  unfold AdjacencySymmetric; infer_instance

instance (ts : TriangleSet) : Decidable (VertexIndicesDistinct ts) := by
  unfold VertexIndicesDistinct; infer_instance

instance (ts : TriangleSet) : Decidable (AdjacencyNoDup ts) := by
  unfold AdjacencyNoDup; infer_instance

/-- A mesh holding the single CCW unit triangle. -/
def tsUnitTriangle : TriangleSet :=
  ⟨[⟨0, 0⟩, ⟨1, 0⟩, ⟨0, 1⟩], [TriangleInfo.new 0 1 2]⟩

/-- The unit-triangle mesh with one extra stored point `(-1, -1)` that is
not a vertex of any triangle. -/
def tsUnitTriangleExtra : TriangleSet :=
  ⟨[⟨0, 0⟩, ⟨1, 0⟩, ⟨0, 1⟩, ⟨-1, -1⟩], [TriangleInfo.new 0 1 2]⟩

/-- The mesh produced by inserting the point `(1/2, 1/2)` into the
supertriangle: three triangles, each incident to a supertriangle vertex. -/
def tsSuperPlusOne : TriangleSet :=
  ⟨[⟨-100, -100⟩, ⟨100, -100⟩, ⟨0, 100⟩, ⟨1/2, 1/2⟩],
   [(TriangleInfo.new 3 1 2).with_adjacent (some 1) none (some 2),
    (TriangleInfo.new 3 0 1).with_adjacent (some 2) none (some 0),
    (TriangleInfo.new 3 2 0).with_adjacent (some 0) none (some 1)]⟩

/-- The mesh state entering `tesselate` for the input
`[(0,0), (10,0), (0,10)]` (normalised to the unit right triangle): the
supertriangle split by the three normalised input points. -/
def tsScaledTriangleMesh : TriangleSet :=
  ⟨[⟨-100, -100⟩, ⟨100, -100⟩, ⟨0, 100⟩, ⟨0, 0⟩, ⟨1, 0⟩, ⟨0, 1⟩],
   [(TriangleInfo.new 4 1 2).with_adjacent (some 3) none (some 5),
    (TriangleInfo.new 3 0 1).with_adjacent (some 2) none (some 3),
    (TriangleInfo.new 5 0 3).with_adjacent (some 4) (some 1) (some 6),
    (TriangleInfo.new 4 3 1).with_adjacent (some 6) (some 1) (some 0),
    (TriangleInfo.new 5 2 0).with_adjacent (some 5) none (some 2),
    (TriangleInfo.new 5 4 2).with_adjacent (some 6) (some 0) (some 4),
    (TriangleInfo.new 5 3 4).with_adjacent (some 2) (some 3) (some 5)]⟩

/-- Two CCW triangles of a unit square glued along the diagonal `(1, 2)`,
with symmetric adjacency. -/
def tsTwoTriangles : TriangleSet :=
  ⟨[⟨0, 0⟩, ⟨1, 0⟩, ⟨1, 1⟩, ⟨0, 1⟩],
   [(TriangleInfo.new 0 1 2).with_adjacent none (some 1) none,
    (TriangleInfo.new 2 1 3).with_adjacent (some 0) none none]⟩

/-- The mesh produced by flipping the shared edge of `tsTwoTriangles`. -/
def tsAfterSwap : TriangleSet :=
  match swap_edges tsTwoTriangles ⟨1, 0⟩ 1 with
  | .ok (_, ts') => ts'
  | .error _ => TriangleSet.new

/-- The mesh produced by splitting the triangle of `tsUnitTriangle` at a
new point index 3. -/
def tsAfterSplit : TriangleSet :=
  (insert_point_in_triangle tsUnitTriangle 0 3).2.2

/-- The slot transform `replace_adjacent` applies to the stored record. -/
def replaceAdjInfo (info : TriangleInfo) (old new : Option ℕ) : TriangleInfo :=
  { info with
    a0 := if info.a0 = old then new else info.a0,
    a1 := if info.a1 = old then new else info.a1,
    a2 := if info.a2 = old then new else info.a2 }

/-- The value of `triangulate([(0,0), (1,0), (0,1)], None, None)`: all
seven mesh triangles, the supertriangle pieces included. -/
def c1_output : List Triangle :=
  [⟨⟨1, 0⟩, ⟨100, -100⟩, ⟨0, 100⟩⟩,
   ⟨⟨0, 0⟩, ⟨-100, -100⟩, ⟨100, -100⟩⟩,
   ⟨⟨0, 1⟩, ⟨-100, -100⟩, ⟨0, 0⟩⟩,
   ⟨⟨1, 0⟩, ⟨0, 0⟩, ⟨100, -100⟩⟩,
   ⟨⟨0, 1⟩, ⟨0, 100⟩, ⟨-100, -100⟩⟩,
   ⟨⟨0, 1⟩, ⟨1, 0⟩, ⟨0, 100⟩⟩,
   ⟨⟨0, 1⟩, ⟨0, 0⟩, ⟨1, 0⟩⟩]

/-- The value of `triangulate([(0,0), (1,1)], None, None)`: a two-point
input is not rejected, it triangulates to five triangles. -/
def c3_output : List Triangle :=
  [⟨⟨1, 1⟩, ⟨100, -100⟩, ⟨0, 100⟩⟩,
   ⟨⟨0, 0⟩, ⟨-100, -100⟩, ⟨100, -100⟩⟩,
   ⟨⟨0, 0⟩, ⟨0, 100⟩, ⟨-100, -100⟩⟩,
   ⟨⟨1, 1⟩, ⟨0, 0⟩, ⟨100, -100⟩⟩,
   ⟨⟨1, 1⟩, ⟨0, 100⟩, ⟨0, 0⟩⟩]

/-! Theorems. -/

/-- Claim C9: `is_point_inside_circumcircle` computes exactly the Sloan
sign-combination form stated by the specification: with
`cos α = x₀₂·x₁₂ + y₀₂·y₁₂` and `cos β = x₀ₚ·x₁ₚ + y₀ₚ·y₁ₚ` it returns
`false` when both are ≥ 0, `true` when both are < 0, and otherwise the
truth value of `sin α·cos β + sin β·cos α < 0` with the sines the
corresponding cross products.  The left side is the translation of the
source, the right side is the formula as the specification words it. -/
theorem c9_circumcircle_sloan_form (t : Triangle) (q : Vector) :
    is_point_inside_circumcircle t q = spec_is_point_inside_circumcircle t q := by
  unfold is_point_inside_circumcircle spec_is_point_inside_circumcircle
    spec_cos_alpha spec_cos_beta spec_sin_alpha spec_sin_beta
  dsimp only
  split_ifs with h1 h2 h3 <;> first | rfl | simp [h3]

/-- One fold step can only shrink the running minimum and grow the running
maximum. -/
theorem updateBounds_mono (b : Bounds) (p : Vector) :
    (updateBounds b p).min.x ≤ b.min.x ∧ (updateBounds b p).min.y ≤ b.min.y ∧
    b.max.x ≤ (updateBounds b p).max.x ∧ b.max.y ≤ (updateBounds b p).max.y := by
  unfold updateBounds
  refine ⟨?_, ?_, ?_, ?_⟩ <;> dsimp only <;> split_ifs <;> linarith

/-- The whole fold can only shrink the minimum and grow the maximum. -/
theorem foldl_updateBounds_mono (points : List Vector) (b : Bounds) :
    (points.foldl updateBounds b).min.x ≤ b.min.x ∧
    (points.foldl updateBounds b).min.y ≤ b.min.y ∧
    b.max.x ≤ (points.foldl updateBounds b).max.x ∧
    b.max.y ≤ (points.foldl updateBounds b).max.y := by
  induction points generalizing b with
  | nil => simp
  | cons q rest ih =>
    have h1 := updateBounds_mono b q
    have h2 := ih (updateBounds b q)
    simp only [List.foldl_cons]
    exact ⟨le_trans h2.1 h1.1, le_trans h2.2.1 h1.2.1,
           le_trans h1.2.2.1 h2.2.2.1, le_trans h1.2.2.2 h2.2.2.2⟩

/-- Every point of the list lies between the folded bounds. -/
theorem foldl_updateBounds_bracket (points : List Vector) (b : Bounds) :
    ∀ p ∈ points,
      (points.foldl updateBounds b).min.x ≤ p.x ∧
      p.x ≤ (points.foldl updateBounds b).max.x ∧
      (points.foldl updateBounds b).min.y ≤ p.y ∧
      p.y ≤ (points.foldl updateBounds b).max.y := by
  induction points generalizing b with
  | nil => intro p hp; cases hp
  | cons q rest ih =>
    intro p hp
    simp only [List.foldl_cons]
    rcases List.mem_cons.1 hp with rfl | hp'
    · have hmono := foldl_updateBounds_mono rest (updateBounds b p)
      have hq : (updateBounds b p).min.x ≤ p.x ∧ p.x ≤ (updateBounds b p).max.x ∧
          (updateBounds b p).min.y ≤ p.y ∧ p.y ≤ (updateBounds b p).max.y := by
        unfold updateBounds
        refine ⟨?_, ?_, ?_, ?_⟩ <;> dsimp only <;> split_ifs <;> linarith
      exact ⟨le_trans hmono.1 hq.1, le_trans hq.2.1 hmono.2.2.1,
             le_trans hmono.2.1 hq.2.2.1, le_trans hq.2.2.2 hmono.2.2.2⟩
    · exact ih (updateBounds b q) p hp'

/-- Claim C10: for a non-empty point list whose self-computed bounding box
has strictly positive extent in both axes, `normalize_points` with no
caller-supplied bounds yields coordinates inside `[0, 1]` in both
components, and the unguarded componentwise division is by a non-zero
(indeed positive) quantity, so in `f32` terms every output is finite. -/
theorem c10_normalize_unit_square (points : List Vector)
    (hne : points ≠ [])
    (hx : 0 < (computeBounds points).max.x - (computeBounds points).min.x)
    (hy : 0 < (computeBounds points).max.y - (computeBounds points).min.y) :
    ((computeBounds points).max.x - (computeBounds points).min.x ≠ 0 ∧
     (computeBounds points).max.y - (computeBounds points).min.y ≠ 0) ∧
    ∀ q ∈ (normalize_points points none).1,
      0 ≤ q.x ∧ q.x ≤ 1 ∧ 0 ≤ q.y ∧ q.y ≤ 1 := by
  refine ⟨⟨ne_of_gt hx, ne_of_gt hy⟩, ?_⟩
  intro q hq
  simp only [normalize_points, List.mem_map] at hq
  obtain ⟨p, hp, rfl⟩ := hq
  have hbr := foldl_updateBounds_bracket points
    ⟨⟨f32MAX, f32MAX⟩, ⟨f32MIN, f32MIN⟩⟩ p hp
  rw [show points.foldl updateBounds ⟨⟨f32MAX, f32MAX⟩, ⟨f32MIN, f32MIN⟩⟩ =
      computeBounds points from rfl] at hbr
  unfold Vector.sub Vector.divV
  dsimp only
  have e1 : 0 ≤ p.x - (computeBounds points).min.x := by linarith [hbr.1]
  have e2 : p.x - (computeBounds points).min.x ≤
      (computeBounds points).max.x - (computeBounds points).min.x := by
    linarith [hbr.2.1]
  have e3 : 0 ≤ p.y - (computeBounds points).min.y := by linarith [hbr.2.2.1]
  have e4 : p.y - (computeBounds points).min.y ≤
      (computeBounds points).max.y - (computeBounds points).min.y := by
    linarith [hbr.2.2.2]
  exact ⟨div_nonneg e1 (le_of_lt hx), (div_le_one hx).2 e2,
         div_nonneg e3 (le_of_lt hy), (div_le_one hy).2 e4⟩

/-- Witness for C10 at the point set of the source's own
`test_normalize`. -/
theorem c10_witness :
    0 ≤ ((normalize_points [⟨0, 5⟩, ⟨-5, 0⟩, ⟨5, -5⟩] none).1.getD 0 ⟨0, 0⟩).x ∧
    ((normalize_points [⟨0, 5⟩, ⟨-5, 0⟩, ⟨5, -5⟩] none).1.getD 0 ⟨0, 0⟩).x ≤ 1 ∧
    0 ≤ ((normalize_points [⟨0, 5⟩, ⟨-5, 0⟩, ⟨5, -5⟩] none).1.getD 0 ⟨0, 0⟩).y ∧
    ((normalize_points [⟨0, 5⟩, ⟨-5, 0⟩, ⟨5, -5⟩] none).1.getD 0 ⟨0, 0⟩).y ≤ 1 :=
  (c10_normalize_unit_square [⟨0, 5⟩, ⟨-5, 0⟩, ⟨5, -5⟩]
    (by decide) (by decide) (by decide)).2
    ((normalize_points [⟨0, 5⟩, ⟨-5, 0⟩, ⟨5, -5⟩] none).1.getD 0 ⟨0, 0⟩)
    (by decide)

/-- Claim C1 is a code bug: on the input `[(0,0), (1,0), (0,1)]` with no
holes, `triangulate` emits all seven mesh triangles — the no-holes branch
of the driver has the `get_supertriangle_triangles` call commented out —
including triangles incident to the supertriangle vertices, instead of
exactly the one input triangle. -/
theorem c1_supertriangle_not_removed :
    triangulate [⟨0, 0⟩, ⟨1, 0⟩, ⟨0, 1⟩] none 100 100 = .ok (.ok c1_output) ∧
    c1_output.length = 7 ∧
    (⟨⟨0, 0⟩, ⟨-100, -100⟩, ⟨100, -100⟩⟩ : Triangle) ∈ c1_output ∧
    get_supertriangle_triangles
      ⟨[⟨-100, -100⟩, ⟨100, -100⟩, ⟨0, 100⟩, ⟨0, 0⟩, ⟨1, 0⟩, ⟨0, 1⟩],
       tsScaledTriangleMesh.triangle_infos⟩ [] = [1, 2, 4, 0, 3, 5] := by
  refine ⟨by rfl, rfl, by decide, by decide⟩

/-- Claim C3 is a code bug: `triangulate` performs no minimum-length
check.  With zero or one input point the capacity computation
`input_points.len() - 2` underflows `usize` (a panic), and with exactly
two points the call succeeds with five triangles; the claimed `Err` value
is never produced. -/
theorem c3_short_input_not_an_error :
    triangulate [⟨1, 2⟩] none 100 100 = .panicked ∧
    triangulate [] none 100 100 = .panicked ∧
    triangulate [⟨0, 0⟩, ⟨1, 1⟩] none 100 100 = .ok (.ok c3_output) ∧
    c3_output.length = 5 :=
  ⟨by rfl, by rfl, by rfl, rfl⟩

/-- Counterexample to claim C2: on a mesh where no triangle incident to
endpoint `a` brackets the ray toward endpoint `b`,
`find_triangle_that_contains_edge_start_and_intersects` panics (its
trailing `.expect(...)`) instead of returning an error value. -/
theorem c2_counterexample_panic :
    tsUnitTriangleExtra.find_triangle_that_contains_edge_start_and_intersects 0 3 =
      .panicked := by rfl

/-- Amended claim C2: the hole-marking pass `get_triangles_in_polygon`
does return `PolygonIsOpen` / `EdgeNotFoundInTriangles` errors, but the
edge-forcing helpers `find_triangle_that_contains_edge_start_and_intersects`
and `get_intersecting_edges` abort through `expect`/`unwrap` when no
incident triangle brackets the ray or a required adjacency slot is
`None`. -/
theorem c2_amended_errors_and_panics :
    tsUnitTriangle.get_triangles_in_polygon [0, 1, 2] [] 10 =
      some (.error .PolygonIsOpen) ∧
    tsUnitTriangle.get_triangles_in_polygon [0, 2] [] 10 =
      some (.error (.EdgeNotFoundInTriangles 0 2)) ∧
    tsUnitTriangleExtra.find_triangle_that_contains_edge_start_and_intersects 1 3 =
      .panicked ∧
    tsUnitTriangle.get_intersecting_edges ⟨1/5, 1/5⟩ ⟨1/5, -1⟩ 0 5 = .panicked :=
  ⟨by rfl, by rfl, by rfl, by rfl⟩

/-- When the walk of `tesselate` reaches a triangle that shares a vertex
with the supertriangle, the `continue` re-enters the loop without
incrementing `triangle_index`, so the loop never terminates: for every
fuel the result is fuel exhaustion. -/
theorem tesselate_loop_stuck (m : ℚ) (pf : ℕ) (ts : TriangleSet) (i : ℕ)
    (hlt : i < ts.triangle_count)
    (hsuper : (ts.get_triangle_info i).vertexIndices 0 = 0 ∨
      (ts.get_triangle_info i).vertexIndices 0 = 1 ∨
      (ts.get_triangle_info i).vertexIndices 0 = 2 ∨
      (ts.get_triangle_info i).vertexIndices 1 = 0 ∨
      (ts.get_triangle_info i).vertexIndices 1 = 1 ∨
      (ts.get_triangle_info i).vertexIndices 1 = 2 ∨
      (ts.get_triangle_info i).vertexIndices 2 = 0 ∨
      (ts.get_triangle_info i).vertexIndices 2 = 1 ∨
      (ts.get_triangle_info i).vertexIndices 2 = 2) :
    ∀ fuel, tesselate_loop m pf fuel ts i = none := by
  intro fuel
  induction fuel with
  | zero => rfl
  | succ n ih =>
    show (if i < ts.triangle_count then _ else _) = none
    rw [if_pos hlt, if_pos hsuper]
    exact ih

/-- Claim C4 is a code bug: the area-refinement walk does not terminate.
On the mesh obtained by inserting one point into the supertriangle (three
triangles, all incident to a supertriangle vertex) and the positive
threshold 1/10, `tesselate` spins forever on `continue` for every fuel
bound and every inner insertion fuel. -/
theorem c4_tesselate_nonterminating :
    ∀ tfuel pfuel, tesselate_loop (1/10) pfuel tfuel tsSuperPlusOne 2 = none :=
  fun tfuel pfuel =>
    tesselate_loop_stuck (1/10) pfuel tsSuperPlusOne 2 (by decide) (by decide) tfuel

/-- Claim C5 is a code bug: with `max_triangle_area = 5` on the side-10
right triangle, `triangulate` never returns — the mesh entering
`tesselate` has the supertriangle-incident triangle `(5, 0, 3)` at index
2, where the walk spins forever — so no output with bounded areas is
produced (and the area test itself is applied to the normalised
coordinates, not the caller's frame). -/
theorem c5_area_refinement_nonterminating :
    ∀ tfuel, triangulate [⟨0, 0⟩, ⟨10, 0⟩, ⟨0, 10⟩] (some 5) 100 tfuel =
      .fuelExhausted := by
  intro tfuel
  have h : tesselate_loop 5 100 tfuel tsScaledTriangleMesh 2 = none :=
    tesselate_loop_stuck 5 100 tsScaledTriangleMesh 2 (by decide) (by decide) tfuel
  have hstep : triangulate [⟨0, 0⟩, ⟨10, 0⟩, ⟨0, 10⟩] (some 5) 100 tfuel =
      triangulate_finish ⟨⟨0, 0⟩, ⟨10, 10⟩⟩ (some 5) 100 tfuel tsScaledTriangleMesh := by
    rfl
  rw [hstep]
  unfold triangulate_finish
  dsimp only
  rw [h]

/-- A successful `findIdx?` scan for an equal point returns an index that
holds that point. -/
theorem findIdx?_eq_some_get (p : Vector) :
    ∀ (l : List Vector) (i : ℕ),
      l.findIdx? (fun q => q == p) = some i → l.get? i = some p := by
  intro l
  induction l with
  | nil => intro i h; simp at h
  | cons a rest ih =>
    intro i h
    rw [List.findIdx?_cons] at h
    by_cases ha : (a == p) = true
    · rw [if_pos ha] at h
      cases h
      simp only [List.get?]
      rw [beq_iff_eq] at ha
      rw [ha]
    · rw [if_neg ha, List.findIdx?_succ, Option.map_eq_some'] at h
      obtain ⟨i', hi', rfl⟩ := h
      simpa using ih i' hi'

/-- Claim C8: inserting a point that equals an already stored vertex
returns `Found` of its (first) index and leaves the mesh — the point
array, every triangle's vertex indices and every adjacency slot —
completely unchanged, for every flip-stack fuel. -/
theorem c8_duplicate_point_no_change (ts : TriangleSet) (p : Vector) (fuel i : ℕ)
    (h : ts.points.findIdx? (fun q => q == p) = some i) :
    triangulate_point ts p fuel = some (.ok (.Found i), ts) ∧
    ts.points.get? i = some p := by
  refine ⟨?_, findIdx?_eq_some_get p ts.points i h⟩
  unfold triangulate_point TriangleSet.add_point
  rw [h]

/-- Witness for C8: re-inserting the stored vertex `(1, 0)` of the unit
triangle returns `Found 1` and the identical mesh. -/
theorem c8_witness :
    triangulate_point tsUnitTriangle ⟨1, 0⟩ 5 =
      some (.ok (.Found 1), tsUnitTriangle) ∧
    tsUnitTriangle.points.get? 1 = some ⟨1, 0⟩ :=
  c8_duplicate_point_no_change tsUnitTriangle ⟨1, 0⟩ 5 1 (by rfl)

/-- Shifting the walk by one step. -/
theorem walkPosition_shift (ts : TriangleSet) (p : Vector) (start : ℕ) :
    ∀ k, walkPosition ts p start (k + 1) =
      walkPosition ts p ((ts.ftcpScan p start).2) k := by
  intro k
  induction k with
  | zero => rfl
  | succ n ih =>
    show (ts.ftcpScan p (walkPosition ts p start (n + 1))).2 = _
    rw [ih]
    rfl

/-- Shifting the found flag by one step. -/
theorem walkFound_shift (ts : TriangleSet) (p : Vector) (start k : ℕ) :
    walkFound ts p start (k + 1) = walkFound ts p ((ts.ftcpScan p start).2) k := by
  unfold walkFound
  rw [walkPosition_shift]

/-- If the walk fails on every position the fuel can reach, the loop
drains its fuel and stops unsuccessfully at the final walk position. -/
theorem ftcpLoop_no_success (ts : TriangleSet) (p : Vector) :
    ∀ (fuel start : ℕ),
      (∀ k, k < fuel → walkFound ts p start k = false) →
      ts.ftcpLoop p fuel start = (false, walkPosition ts p start fuel, 0) := by
  intro fuel
  induction fuel with
  | zero => intro start _; rfl
  | succ n ih =>
    intro start h
    have h0 : (ts.ftcpScan p start).1 = false := h 0 (Nat.succ_pos n)
    show (if (ts.ftcpScan p start).1 = true then ((true, start, n) : Bool × ℕ × ℕ)
          else ts.ftcpLoop p n (ts.ftcpScan p start).2) = _
    rw [h0, if_neg (by simp)]
    rw [ih ((ts.ftcpScan p start).2)
      (fun k hk => (walkFound_shift ts p start k) ▸ h (k + 1) (by omega))]
    rw [← walkPosition_shift]

/-- If the walk first succeeds at position `k` within the fuel, the loop
stops there with the corresponding remaining fuel. -/
theorem ftcpLoop_first_success (ts : TriangleSet) (p : Vector) :
    ∀ (k fuel start : ℕ), k < fuel →
      (∀ m, m < k → walkFound ts p start m = false) →
      walkFound ts p start k = true →
      ts.ftcpLoop p fuel start = (true, walkPosition ts p start k, fuel - (k + 1)) := by
  intro k
  induction k with
  | zero =>
    intro fuel start hk _ hf
    obtain ⟨f, rfl⟩ : ∃ f, fuel = f + 1 := ⟨fuel - 1, by omega⟩
    have h0 : (ts.ftcpScan p start).1 = true := hf
    show (if (ts.ftcpScan p start).1 = true then ((true, start, f) : Bool × ℕ × ℕ)
          else ts.ftcpLoop p f (ts.ftcpScan p start).2) = _
    rw [h0, if_pos rfl]
    rfl
  | succ k ih =>
    intro fuel start hk hb hf
    obtain ⟨f, rfl⟩ : ∃ f, fuel = f + 1 := ⟨fuel - 1, by omega⟩
    have h0 : (ts.ftcpScan p start).1 = false := hb 0 (Nat.succ_pos k)
    show (if (ts.ftcpScan p start).1 = true then ((true, start, f) : Bool × ℕ × ℕ)
          else ts.ftcpLoop p f (ts.ftcpScan p start).2) = _
    rw [h0, if_neg (by simp)]
    rw [ih f ((ts.ftcpScan p start).2) (by omega)
      (fun m hm => (walkFound_shift ts p start m) ▸ hb (m + 1) (by omega))
      ((walkFound_shift ts p start k) ▸ hf)]
    rw [← walkPosition_shift]
    simp [Nat.succ_sub_succ]

/-- The exit test of `find_triangle_that_contains_point`, written out
over the loop result. -/
theorem find_triangle_that_contains_point_eq (ts : TriangleSet) (p : Vector)
    (start : ℕ) :
    ts.find_triangle_that_contains_point p start =
      if (ts.ftcpLoop p ts.triangle_count start).2.2 = 0 ∧ 1 < ts.triangle_count
      then .error .PointNotInTriangle
      else .ok (ts.ftcpLoop p ts.triangle_count start).2.1 := rfl

/-- Counterexample to claim C7 as stated: on a mesh holding a single
triangle and a query point outside it, the walk visits as many triangles
as the mesh holds (one) without success — the claim demands
`Err(PointNotInTriangle)` exactly then — yet the source returns `Ok(0)`,
because the error is additionally guarded by `triangle_count > 1`. -/
theorem c7_counterexample_single_triangle :
    tsUnitTriangle.find_triangle_that_contains_point ⟨5, 5⟩ 0 = .ok 0 ∧
    walkFound tsUnitTriangle ⟨5, 5⟩ 0 0 = false :=
  ⟨by rfl, by rfl⟩

/-- Amended claim C7: the walk characterisation with the exit condition
the source actually implements.  `find_triangle_that_contains_point`
returns `Err(PointNotInTriangle)` iff the mesh holds more than one
triangle and the walk does not reach a triangle containing `p` within
`triangle_count - 1` steps (so success exactly on the last allowed check
is still reported as an error, and a single-triangle mesh never errors);
it returns `Ok` of the walk's first successful position whenever that
position is reached within `triangle_count - 1` steps. -/
theorem c7_amended_walk_characterization (ts : TriangleSet) (p : Vector) (start : ℕ) :
    (ts.find_triangle_that_contains_point p start = .error .PointNotInTriangle ↔
      1 < ts.triangle_count ∧
      ∀ k, k + 1 < ts.triangle_count → walkFound ts p start k = false) ∧
    (∀ k, k + 1 < ts.triangle_count →
      (∀ m, m < k → walkFound ts p start m = false) →
      walkFound ts p start k = true →
      ts.find_triangle_that_contains_point p start = .ok (walkPosition ts p start k)) := by
  rw [find_triangle_that_contains_point_eq]
  constructor
  · constructor
    · intro he
      by_cases hcond : (ts.ftcpLoop p ts.triangle_count start).2.2 = 0 ∧
          1 < ts.triangle_count
      · refine ⟨hcond.2, ?_⟩
        by_contra hnot
        push_neg at hnot
        obtain ⟨k, hk, hfk⟩ := hnot
        have hfk' : walkFound ts p start k = true := by
          cases hw : walkFound ts p start k with
          | false => exact absurd hw hfk
          | true => rfl
        have hex : ∃ m, walkFound ts p start m = true := ⟨k, hfk'⟩
        have hk0le : Nat.find hex ≤ k := Nat.find_le hfk'
        have hloop := ftcpLoop_first_success ts p (Nat.find hex)
          ts.triangle_count start (by omega)
          (fun m hm => by
            have h' := Nat.find_min hex hm
            cases hw : walkFound ts p start m with
            | false => rfl
            | true => exact absurd hw h')
          (Nat.find_spec hex)
        rw [hloop] at hcond
        simp at hcond
        omega
      · rw [if_neg hcond] at he
        exact Except.noConfusion he
    · rintro ⟨h1, h2⟩
      by_cases hex : ∃ m, walkFound ts p start m = true
      · have hmin : ∀ m, m < Nat.find hex → walkFound ts p start m = false := by
          intro m hm
          have h' := Nat.find_min hex hm
          cases hw : walkFound ts p start m with
          | false => rfl
          | true => exact absurd hw h'
        by_cases hk0n : Nat.find hex < ts.triangle_count
        · have hk0big : ¬ (Nat.find hex + 1 < ts.triangle_count) := fun hlt => by
            simpa [h2 (Nat.find hex) hlt] using Nat.find_spec hex
          have hloop := ftcpLoop_first_success ts p (Nat.find hex)
            ts.triangle_count start hk0n hmin (Nat.find_spec hex)
          rw [hloop, if_pos ⟨by simp; omega, h1⟩]
        · have hloop := ftcpLoop_no_success ts p ts.triangle_count start
            (fun m hm => hmin m (by omega))
          rw [hloop, if_pos ⟨rfl, h1⟩]
      · push_neg at hex
        have hloop := ftcpLoop_no_success ts p ts.triangle_count start
          (fun m _ => by
            cases hw : walkFound ts p start m with
            | false => rfl
            | true => exact absurd hw (hex m))
        rw [hloop, if_pos ⟨rfl, h1⟩]
  · intro k hk hb hf
    have hloop := ftcpLoop_first_success ts p k ts.triangle_count start
      (by omega) hb hf
    rw [hloop, if_neg (by simp; omega)]

/-- Witness for C7: both behaviours at concrete inputs.  On the glued
two-triangle square, the point `(3/4, 1/4)` is found at walk position 0
and returned as `Ok`, and the faraway point `(5, 5)` makes the walk fail
on every allowed check, producing the error. -/
theorem c7_witness :
    tsTwoTriangles.find_triangle_that_contains_point ⟨3/4, 1/4⟩ 0 =
      .ok (walkPosition tsTwoTriangles ⟨3/4, 1/4⟩ 0 0) ∧
    tsTwoTriangles.find_triangle_that_contains_point ⟨5, 5⟩ 0 =
      .error .PointNotInTriangle :=
  ⟨(c7_amended_walk_characterization tsTwoTriangles ⟨3/4, 1/4⟩ 0).2 0
      (by decide) (fun m hm => absurd hm (by omega)) (by rfl),
   (c7_amended_walk_characterization tsTwoTriangles ⟨5, 5⟩ 0).1.mpr
      ⟨by decide, fun k hk => by
        have h2 : tsTwoTriangles.triangle_count = 2 := rfl
        rw [h2] at hk
        have hk0 : k = 0 := by omega
        subst hk0
        rfl⟩⟩

/-! Accessor lemmas for the primitive mesh mutations, used by the
adjacency-symmetry preservation proof. -/

/-- Helper: `getD` after `set` at the written index. -/
theorem getD_set_self {α : Type} (l : List α) (i : ℕ) (a d : α) (h : i < l.length) :
    (l.set i a).getD i d = a := by
  simp [List.getD, List.getElem?_set_self h]

/-- Helper: `getD` after `set` at a different index. -/
theorem getD_set_ne {α : Type} (l : List α) (i j : ℕ) (a d : α) (h : i ≠ j) :
    (l.set i a).getD j d = l.getD j d := by
  simp [List.getD, List.getElem?_set_ne h]

/-- Helper: `getD` of an append, below the split. -/
theorem getD_append_left {α : Type} (l1 l2 : List α) (n : ℕ) (d : α)
    (h : n < l1.length) :
    (l1 ++ l2).getD n d = l1.getD n d := by
  simp [List.getD, List.getElem?_append_left h]

/-- Helper: `getD` of a singleton append at the old length. -/
theorem getD_append_len {α : Type} (l : List α) (x d : α) :
    (l ++ [x]).getD l.length d = x := by
  simp [List.getD, List.getElem?_append_right (Nat.le_refl _)]

/-- Helper: `getD` past the end. -/
theorem getD_past_end {α : Type} (l : List α) (n : ℕ) (d : α)
    (h : l.length ≤ n) :
    l.getD n d = d := by
  simp [List.getD, List.getElem?_eq_none h]

/-- Reading after `replace_triangle`. -/
theorem get_info_replace_triangle (ts : TriangleSet) (t : ℕ) (info : TriangleInfo)
    (u : ℕ) (ht : t < ts.triangle_count) :
    (ts.replace_triangle t info).get_triangle_info u =
      if u = t then info else ts.get_triangle_info u := by
  by_cases hu : u = t
  · subst hu
    rw [if_pos rfl]
    show (ts.triangle_infos.set u info).getD u defaultTriangleInfo = info
    exact getD_set_self _ _ _ _ ht
  · rw [if_neg hu]
    show (ts.triangle_infos.set t info).getD u defaultTriangleInfo =
      ts.get_triangle_info u
    rw [getD_set_ne _ _ _ _ _ (fun h => hu h.symm)]
    rfl

/-- `replace_triangle` keeps the triangle count. -/
theorem count_replace_triangle (ts : TriangleSet) (t : ℕ) (info : TriangleInfo) :
    (ts.replace_triangle t info).triangle_count = ts.triangle_count := by
  simp [TriangleSet.replace_triangle, TriangleSet.triangle_count]

/-- `replace_triangle` keeps the point array. -/
theorem points_replace_triangle (ts : TriangleSet) (t : ℕ) (info : TriangleInfo) :
    (ts.replace_triangle t info).points = ts.points := rfl

/-- Reading after `replace_adjacent`. -/
theorem get_info_replace_adjacent (ts : TriangleSet) (t : ℕ) (old new : Option ℕ)
    (u : ℕ) (ht : t < ts.triangle_count) :
    (ts.replace_adjacent t old new).get_triangle_info u =
      if u = t then replaceAdjInfo (ts.get_triangle_info t) old new
      else ts.get_triangle_info u := by
  unfold TriangleSet.replace_adjacent
  split
  · next hnone =>
    rw [List.get?_eq_none] at hnone
    exact absurd ht (by unfold TriangleSet.triangle_count; omega)
  · next info0 hsome =>
    have hinfo0 : ts.get_triangle_info t = info0 := by
      unfold TriangleSet.get_triangle_info
      simp [List.getD, ← List.get?_eq_getElem?, hsome]
    by_cases hu : u = t
    · subst hu
      rw [if_pos rfl, hinfo0]
      show (ts.triangle_infos.set u _).getD u defaultTriangleInfo = _
      rw [getD_set_self _ _ _ _ ht]
      rfl
    · rw [if_neg hu]
      show (ts.triangle_infos.set t _).getD u defaultTriangleInfo =
        ts.get_triangle_info u
      rw [getD_set_ne _ _ _ _ _ (fun h => hu h.symm)]
      rfl

/-- `replace_adjacent` keeps the triangle count. -/
theorem count_replace_adjacent (ts : TriangleSet) (t : ℕ) (old new : Option ℕ) :
    (ts.replace_adjacent t old new).triangle_count = ts.triangle_count := by
  unfold TriangleSet.replace_adjacent TriangleSet.triangle_count
  split <;> simp

/-- Reading after `add_triangle_info` (valid for every index: past the new
end both sides give the default record). -/
theorem get_info_add_triangle_info (ts : TriangleSet) (info : TriangleInfo) (u : ℕ) :
    (ts.add_triangle_info info).2.get_triangle_info u =
      if u = ts.triangle_count then info else ts.get_triangle_info u := by
  show (ts.triangle_infos ++ [info]).getD u defaultTriangleInfo =
    if u = ts.triangle_infos.length then info
    else ts.get_triangle_info u
  by_cases hu : u = ts.triangle_infos.length
  · subst hu
    rw [if_pos rfl]
    exact getD_append_len _ _ _
  · rw [if_neg hu]
    show _ = ts.triangle_infos.getD u defaultTriangleInfo
    rcases Nat.lt_or_ge u ts.triangle_infos.length with h | h
    · exact getD_append_left _ _ _ _ h
    · rw [getD_past_end _ _ _ (by simp; omega), getD_past_end _ _ _ h]

/-- `add_triangle_info` grows the count by one and returns the old count. -/
theorem count_add_triangle_info (ts : TriangleSet) (info : TriangleInfo) :
    (ts.add_triangle_info info).2.triangle_count = ts.triangle_count + 1 ∧
    (ts.add_triangle_info info).1 = ts.triangle_count := by
  unfold TriangleSet.add_triangle_info TriangleSet.triangle_count
  simp

/-- The index returned by `add_triangle_info` is the old count. -/
theorem fst_add_triangle_info (ts : TriangleSet) (info : TriangleInfo) :
    (ts.add_triangle_info info).1 = ts.triangle_count := rfl

/-- `add_triangle_info` grows the count by one. -/
theorem count_snd_add_triangle_info (ts : TriangleSet) (info : TriangleInfo) :
    (ts.add_triangle_info info).2.triangle_count = ts.triangle_count + 1 := by
  unfold TriangleSet.add_triangle_info TriangleSet.triangle_count
  simp

/-- Reading after `set_vertex`. -/
theorem get_info_set_vertex (ts : TriangleSet) (t : ℕ) (i : Fin 3) (v : ℕ)
    (u : ℕ) (ht : t < ts.triangle_count) :
    (ts.set_vertex t i v).get_triangle_info u =
      if u = t then (ts.get_triangle_info t).setVertex i v
      else ts.get_triangle_info u := by
  unfold TriangleSet.set_vertex
  split
  · next hnone =>
    rw [List.get?_eq_none] at hnone
    exact absurd ht (by unfold TriangleSet.triangle_count; omega)
  · next info0 hsome =>
    have hinfo0 : ts.get_triangle_info t = info0 := by
      unfold TriangleSet.get_triangle_info
      simp [List.getD, ← List.get?_eq_getElem?, hsome]
    by_cases hu : u = t
    · subst hu
      rw [if_pos rfl, hinfo0]
      show (ts.triangle_infos.set u _).getD u defaultTriangleInfo = _
      rw [getD_set_self _ _ _ _ ht]
    · rw [if_neg hu]
      show (ts.triangle_infos.set t _).getD u defaultTriangleInfo =
        ts.get_triangle_info u
      rw [getD_set_ne _ _ _ _ _ (fun h => hu h.symm)]
      rfl

/-- `set_vertex` keeps the triangle count. -/
theorem count_set_vertex (ts : TriangleSet) (t : ℕ) (i : Fin 3) (v : ℕ) :
    (ts.set_vertex t i v).triangle_count = ts.triangle_count := by
  unfold TriangleSet.set_vertex TriangleSet.triangle_count
  split <;> simp

/-- Reading after `set_adjacent`. -/
theorem get_info_set_adjacent (ts : TriangleSet) (t : ℕ) (i : Fin 3) (a : Option ℕ)
    (u : ℕ) (ht : t < ts.triangle_count) :
    (ts.set_adjacent t i a).get_triangle_info u =
      if u = t then (ts.get_triangle_info t).setAdjacent i a
      else ts.get_triangle_info u := by
  unfold TriangleSet.set_adjacent
  split
  · next hnone =>
    rw [List.get?_eq_none] at hnone
    exact absurd ht (by unfold TriangleSet.triangle_count; omega)
  · next info0 hsome =>
    have hinfo0 : ts.get_triangle_info t = info0 := by
      unfold TriangleSet.get_triangle_info
      simp [List.getD, ← List.get?_eq_getElem?, hsome]
    by_cases hu : u = t
    · subst hu
      rw [if_pos rfl, hinfo0]
      show (ts.triangle_infos.set u _).getD u defaultTriangleInfo = _
      rw [getD_set_self _ _ _ _ ht]
    · rw [if_neg hu]
      show (ts.triangle_infos.set t _).getD u defaultTriangleInfo =
        ts.get_triangle_info u
      rw [getD_set_ne _ _ _ _ _ (fun h => hu h.symm)]
      rfl

/-- `set_adjacent` keeps the triangle count. -/
theorem count_set_adjacent (ts : TriangleSet) (t : ℕ) (i : Fin 3) (a : Option ℕ) :
    (ts.set_adjacent t i a).triangle_count = ts.triangle_count := by
  unfold TriangleSet.set_adjacent TriangleSet.triangle_count
  split <;> simp

/-- Slot view of the `replace_adjacent` transform. -/
theorem adj_replaceAdjInfo (info : TriangleInfo) (old new : Option ℕ) (i : Fin 3) :
    (replaceAdjInfo info old new).adjacentTriangleIndices i =
      if info.adjacentTriangleIndices i = old then new
      else info.adjacentTriangleIndices i := by
  fin_cases i <;> rfl

/-- `replace_adjacent` does not touch the vertices. -/
theorem verts_replaceAdjInfo (info : TriangleInfo) (old new : Option ℕ) (i : Fin 3) :
    (replaceAdjInfo info old new).vertexIndices i = info.vertexIndices i := by
  fin_cases i <;> rfl

/-- Slot view of `setVertex`. -/
theorem verts_setVertex (info : TriangleInfo) (i j : Fin 3) (v : ℕ) :
    (info.setVertex i v).vertexIndices j =
      if j = i then v else info.vertexIndices j := by
  fin_cases i <;> fin_cases j <;> rfl

/-- `setVertex` does not touch the adjacency. -/
theorem adj_setVertex (info : TriangleInfo) (i j : Fin 3) (v : ℕ) :
    (info.setVertex i v).adjacentTriangleIndices j =
      info.adjacentTriangleIndices j := by
  fin_cases i <;> fin_cases j <;> rfl

/-- Slot view of `setAdjacent`. -/
theorem adj_setAdjacent (info : TriangleInfo) (i j : Fin 3) (a : Option ℕ) :
    (info.setAdjacent i a).adjacentTriangleIndices j =
      if j = i then a else info.adjacentTriangleIndices j := by
  fin_cases i <;> fin_cases j <;> rfl

/-- `setAdjacent` does not touch the vertices. -/
theorem verts_setAdjacent (info : TriangleInfo) (i j : Fin 3) (a : Option ℕ) :
    (info.setAdjacent i a).vertexIndices j = info.vertexIndices j := by
  fin_cases i <;> fin_cases j <;> rfl

/-- The default (out-of-range) record has no neighbours. -/
theorem adj_default (i : Fin 3) :
    defaultTriangleInfo.adjacentTriangleIndices i = none := by
  fin_cases i <;> rfl

/-- Any adjacency pointer of a symmetric mesh targets a stored triangle. -/
theorem adjacent_lt_of_symmetric (ts : TriangleSet) (hsym : AdjacencySymmetric ts)
    (t : ℕ) (ht : t < ts.triangle_count) (i : Fin 3) (u : ℕ)
    (hu : (ts.get_triangle_info t).adjacentTriangleIndices i = some u) :
    u < ts.triangle_count := by
  obtain ⟨j, _, _, hj3⟩ := hsym t ht i u hu
  by_contra hge
  have hdef : ts.get_triangle_info u = defaultTriangleInfo := by
    unfold TriangleSet.get_triangle_info
    exact List.getD_eq_default _ _ (by unfold TriangleSet.triangle_count at hge; omega)
  rw [hdef, adj_default] at hj3
  exact Option.noConfusion hj3

/-- No triangle of a symmetric mesh with distinct vertices is its own
neighbour. -/
theorem no_self_adjacent (ts : TriangleSet) (hsym : AdjacencySymmetric ts)
    (hdis : VertexIndicesDistinct ts) (t : ℕ) (ht : t < ts.triangle_count)
    (i : Fin 3) :
    (ts.get_triangle_info t).adjacentTriangleIndices i ≠ some t := by
  intro hself
  obtain ⟨j, hj1, hj2, _⟩ := hsym t ht i t hself
  have fne1 : ∀ k : Fin 3, k ≠ k + 1 := by decide
  have fne2 : ∀ k : Fin 3, k + 1 + 1 ≠ k := by decide
  have fne3 : ∀ k : Fin 3, k + 2 ≠ k + 1 := by decide
  have hcases : ∀ a b : Fin 3, a = b ∨ a = b + 1 ∨ a = b + 2 := by decide
  rcases hcases j i with hj | hj | hj
  · subst hj
    exact hdis t ht j (j + 1) (fne1 j) hj1
  · subst hj
    exact hdis t ht (i + 1 + 1) i (fne2 i) hj2
  · subst hj
    exact hdis t ht (i + 2) (i + 1) (fne3 i) hj1

/-- In a symmetric, duplicate-free mesh the slot found for the shared
vertex is determined: if vertex `m` of a distinct-vertex record holds
`x`, the first-index search returns `m`. -/
theorem firstIndexOfVertex_eq (info : TriangleInfo)
    (hdis : ∀ i j : Fin 3, i ≠ j → info.vertexIndices i ≠ info.vertexIndices j)
    (m : Fin 3) (x : ℕ) (hm : info.vertexIndices m = x) :
    firstIndexOfVertex info x = some m := by
  unfold firstIndexOfVertex
  have hm3 : ∀ k : Fin 3, k = 0 ∨ k = 1 ∨ k = 2 := by decide
  rcases hm3 m with h3 | h3 | h3 <;> subst h3
  · rw [if_pos hm]
  · rw [if_neg (hm ▸ hdis 0 1 (by decide)), if_pos hm]
  · rw [if_neg (hm ▸ hdis 0 2 (by decide)), if_neg (hm ▸ hdis 1 2 (by decide)),
      if_pos hm]

/-- Exhaustive offset view of `Fin 3`. -/
theorem fin3_all (a b : Fin 3) : a = b ∨ a = b + 1 ∨ a = b + 2 := by
  revert a b; decide

/-- Literal enumeration of `Fin 3`. -/
theorem fin3_012 (a : Fin 3) : a = 0 ∨ a = 1 ∨ a = 2 := by revert a; decide

/-- `Fin 3` cyclic-shift facts used in the adjacency bookkeeping. -/
theorem fin3_sne1 (a : Fin 3) : a ≠ a + 1 := by revert a; decide

theorem fin3_sne2 (a : Fin 3) : a ≠ a + 2 := by revert a; decide

theorem fin3_sne11 (a : Fin 3) : a ≠ a + 1 + 1 := by revert a; decide

theorem fin3_s12 (a : Fin 3) : a + 1 ≠ a + 2 := by revert a; decide

theorem fin3_add11 (a : Fin 3) : a + 1 + 1 = a + 2 := by revert a; decide

theorem fin3_add21 (a : Fin 3) : a + 2 + 1 = a := by revert a; decide

theorem fin3_add111 (a : Fin 3) : a + 1 + 1 + 1 = a := by revert a; decide

/-- In a symmetric mesh with distinct, duplicate-free triangles, the two
outward neighbours moved by `swap_edges` (the adjacent triangle's slot
after the shared vertex, and the current triangle's slot after the shared
edge) are distinct triangles. -/
theorem swap_targets_distinct (ts : TriangleSet) (cur adj : ℕ) (s k : Fin 3)
    (hsym : AdjacencySymmetric ts) (hdis : VertexIndicesDistinct ts)
    (hcur : cur < ts.triangle_count) (hadjlt : adj < ts.triangle_count)
    (hca : cur ≠ adj)
    (hk1 : (ts.get_triangle_info adj).vertexIndices k =
      (ts.get_triangle_info cur).vertexIndices (s + 1))
    (hk2 : (ts.get_triangle_info adj).vertexIndices (k + 1) =
      (ts.get_triangle_info cur).vertexIndices s)
    (f g : ℕ)
    (hf : (ts.get_triangle_info adj).adjacentTriangleIndices (k + 1) = some f)
    (hg : (ts.get_triangle_info cur).adjacentTriangleIndices (s + 1) = some g) :
    f ≠ g := by
  intro hEq
  subst hEq
  obtain ⟨m, hm1, hm2, hm3⟩ := hsym adj hadjlt (k + 1) f hf
  obtain ⟨m2, h21, h22, h23⟩ := hsym cur hcur (s + 1) f hg
  have hmm : m ≠ m2 := by
    intro h
    exact hca (Option.some.inj ((h ▸ hm3).symm.trans h23)).symm
  rcases fin3_all m2 m with he | he | he
  · exact hmm he.symm
  · rw [he] at h21
    rw [hk2] at hm2
    have hSP : (ts.get_triangle_info cur).vertexIndices s ≠
        (ts.get_triangle_info cur).vertexIndices (s + 1 + 1) :=
      hdis cur hcur s (s + 1 + 1) (fin3_add11 s ▸ fin3_sne2 s)
    exact hSP (hm2.symm.trans h21)
  · rw [he, fin3_add21 m] at h22
    rw [← hk1] at h22
    have hON : (ts.get_triangle_info adj).vertexIndices (k + 1 + 1) ≠
        (ts.get_triangle_info adj).vertexIndices k :=
      hdis adj hadjlt (k + 1 + 1) k (Ne.symm (fin3_sne11 k))
    exact hON (hm1.symm.trans h22)

/-- Core of the edge-flip symmetry argument: any mesh whose triangle table
is described slot-for-slot by the result of `swap_edges` (hypothesis `hG`)
is again adjacency-symmetric. -/
theorem swap_core_symmetric (ts ts' : TriangleSet) (cur adj : ℕ) (s k : Fin 3)
    (hsym : AdjacencySymmetric ts) (hdis : VertexIndicesDistinct ts)
    (hnodup : AdjacencyNoDup ts)
    (hcur : cur < ts.triangle_count)
    (hadj : (ts.get_triangle_info cur).adjacentTriangleIndices s = some adj)
    (hadjlt : adj < ts.triangle_count)
    (hk1 : (ts.get_triangle_info adj).vertexIndices k =
      (ts.get_triangle_info cur).vertexIndices (s + 1))
    (hk2 : (ts.get_triangle_info adj).vertexIndices (k + 1) =
      (ts.get_triangle_info cur).vertexIndices s)
    (hk3 : (ts.get_triangle_info adj).adjacentTriangleIndices k = some cur)
    (P SH P2 OP : ℕ) (csv fnv snv a2v : Option ℕ)
    (hP : (ts.get_triangle_info cur).vertexIndices (s + 2) = P)
    (hSH : (ts.get_triangle_info cur).vertexIndices s = SH)
    (hP2 : (ts.get_triangle_info cur).vertexIndices (s + 1) = P2)
    (hOP : (ts.get_triangle_info adj).vertexIndices (k + 1 + 1) = OP)
    (hcs : (ts.get_triangle_info cur).adjacentTriangleIndices (s + 2) = csv)
    (hfnv : (ts.get_triangle_info adj).adjacentTriangleIndices (k + 1) = fnv)
    (hsnv : (ts.get_triangle_info adj).adjacentTriangleIndices (k + 1 + 1) = snv)
    (ha2v : (ts.get_triangle_info cur).adjacentTriangleIndices (s + 1) = a2v)
    (hcount : ts'.triangle_count = ts.triangle_count)
    (hG : ∀ u, ts'.get_triangle_info u =
      if u = cur then ⟨P, SH, OP, csv, fnv, some adj⟩
      else if u = adj then ⟨P, OP, P2, some cur, snv, a2v⟩
      else if fnv = some u then
        replaceAdjInfo (ts.get_triangle_info u) (some adj) (some cur)
      else if a2v = some u then
        replaceAdjInfo (ts.get_triangle_info u) (some cur) (some adj)
      else ts.get_triangle_info u) :
    AdjacencySymmetric ts' := by
  have hca : cur ≠ adj := fun h =>
    no_self_adjacent ts hsym hdis cur hcur s (hadj.trans (congrArg some h.symm))
  have hfg : ∀ f g, fnv = some f → a2v = some g → f ≠ g := fun f g hf hg =>
    swap_targets_distinct ts cur adj s k hsym hdis hcur hadjlt hca hk1 hk2 f g
      (hfnv.trans hf) (ha2v.trans hg)
  have hGcur : ts'.get_triangle_info cur = ⟨P, SH, OP, csv, fnv, some adj⟩ := by
    rw [hG cur, if_pos rfl]
  have hGadj : ts'.get_triangle_info adj = ⟨P, OP, P2, some cur, snv, a2v⟩ := by
    rw [hG adj, if_neg (Ne.symm hca), if_pos rfl]
  have hV' : ∀ u, u ≠ cur → u ≠ adj → ∀ j,
      (ts'.get_triangle_info u).vertexIndices j =
        (ts.get_triangle_info u).vertexIndices j := by
    intro u huc hua j
    rw [hG u, if_neg huc, if_neg hua]
    by_cases hfu : fnv = some u
    · rw [if_pos hfu]; exact verts_replaceAdjInfo _ _ _ j
    · rw [if_neg hfu]
      by_cases hgu : a2v = some u
      · rw [if_pos hgu]; exact verts_replaceAdjInfo _ _ _ j
      · rw [if_neg hgu]
  have hA' : ∀ u, u ≠ cur → u ≠ adj → ∀ j,
      (ts'.get_triangle_info u).adjacentTriangleIndices j =
        if fnv = some u then
          (if (ts.get_triangle_info u).adjacentTriangleIndices j = some adj
            then some cur else (ts.get_triangle_info u).adjacentTriangleIndices j)
        else if a2v = some u then
          (if (ts.get_triangle_info u).adjacentTriangleIndices j = some cur
            then some adj else (ts.get_triangle_info u).adjacentTriangleIndices j)
        else (ts.get_triangle_info u).adjacentTriangleIndices j := by
    intro u huc hua j
    rw [hG u, if_neg huc, if_neg hua]
    by_cases hfu : fnv = some u
    · rw [if_pos hfu, if_pos hfu]; exact adj_replaceAdjInfo _ _ _ j
    · rw [if_neg hfu, if_neg hfu]
      by_cases hgu : a2v = some u
      · rw [if_pos hgu, if_pos hgu]; exact adj_replaceAdjInfo _ _ _ j
      · rw [if_neg hgu, if_neg hgu]
  have hApres : ∀ u w, u ≠ cur → u ≠ adj → w ≠ cur → w ≠ adj → ∀ j,
      (ts.get_triangle_info u).adjacentTriangleIndices j = some w →
      (ts'.get_triangle_info u).adjacentTriangleIndices j = some w := by
    intro u w huc hua hwc hwa j hj
    have hnc1 : (ts.get_triangle_info u).adjacentTriangleIndices j ≠ some adj := by
      rw [hj]; intro hh; exact hwa (Option.some.inj hh)
    have hnc2 : (ts.get_triangle_info u).adjacentTriangleIndices j ≠ some cur := by
      rw [hj]; intro hh; exact hwc (Option.some.inj hh)
    rw [hA' u huc hua j]
    by_cases hfu : fnv = some u
    · rw [if_pos hfu, if_neg hnc1]; exact hj
    · rw [if_neg hfu]
      by_cases hgu : a2v = some u
      · rw [if_pos hgu, if_neg hnc2]; exact hj
      · rw [if_neg hgu]; exact hj
  have hApresC : ∀ u, u ≠ cur → u ≠ adj → a2v ≠ some u → ∀ j,
      (ts.get_triangle_info u).adjacentTriangleIndices j = some cur →
      (ts'.get_triangle_info u).adjacentTriangleIndices j = some cur := by
    intro u huc hua hna j hj
    have hnc1 : (ts.get_triangle_info u).adjacentTriangleIndices j ≠ some adj := by
      rw [hj]; intro hh; exact hca (Option.some.inj hh)
    rw [hA' u huc hua j]
    by_cases hfu : fnv = some u
    · rw [if_pos hfu, if_neg hnc1]; exact hj
    · rw [if_neg hfu, if_neg hna]; exact hj
  have hApresA : ∀ u, u ≠ cur → u ≠ adj → fnv ≠ some u → ∀ j,
      (ts.get_triangle_info u).adjacentTriangleIndices j = some adj →
      (ts'.get_triangle_info u).adjacentTriangleIndices j = some adj := by
    intro u huc hua hnf j hj
    have hnc2 : (ts.get_triangle_info u).adjacentTriangleIndices j ≠ some cur := by
      rw [hj]; intro hh; exact hca (Option.some.inj hh).symm
    rw [hA' u huc hua j, if_neg hnf]
    by_cases hgu : a2v = some u
    · rw [if_pos hgu, if_neg hnc2]; exact hj
    · rw [if_neg hgu]; exact hj
  have hArepl1 : ∀ u, fnv = some u → u ≠ cur → u ≠ adj → ∀ j,
      (ts.get_triangle_info u).adjacentTriangleIndices j = some adj →
      (ts'.get_triangle_info u).adjacentTriangleIndices j = some cur := by
    intro u hfu huc hua j hj
    rw [hA' u huc hua j, if_pos hfu, if_pos hj]
  have hArepl2 : ∀ u, a2v = some u → u ≠ cur → u ≠ adj → ∀ j,
      (ts.get_triangle_info u).adjacentTriangleIndices j = some cur →
      (ts'.get_triangle_info u).adjacentTriangleIndices j = some adj := by
    intro u hgu huc hua j hj
    have hnf : fnv ≠ some u := fun h => hfg u u h hgu rfl
    rw [hA' u huc hua j, if_neg hnf, if_pos hgu, if_pos hj]
  have hWf : ∀ f, fnv = some f → ∃ m : Fin 3,
      (ts.get_triangle_info f).vertexIndices m = OP ∧
      (ts.get_triangle_info f).vertexIndices (m + 1) = SH ∧
      (ts.get_triangle_info f).adjacentTriangleIndices m = some adj := by
    intro f hf
    obtain ⟨m, h1, h2, h3⟩ := hsym adj hadjlt (k + 1) f (hfnv.trans hf)
    rw [hOP] at h1
    rw [hk2, hSH] at h2
    exact ⟨m, h1, h2, h3⟩
  have hWg : ∀ g, a2v = some g → ∃ m2 : Fin 3,
      (ts.get_triangle_info g).vertexIndices m2 = P ∧
      (ts.get_triangle_info g).vertexIndices (m2 + 1) = P2 ∧
      (ts.get_triangle_info g).adjacentTriangleIndices m2 = some cur := by
    intro g hg
    obtain ⟨m2, h1, h2, h3⟩ := hsym cur hcur (s + 1) g (ha2v.trans hg)
    rw [fin3_add11 s, hP] at h1
    rw [hP2] at h2
    exact ⟨m2, h1, h2, h3⟩
  have hWn : ∀ n, snv = some n → ∃ m3 : Fin 3,
      (ts.get_triangle_info n).vertexIndices m3 = P2 ∧
      (ts.get_triangle_info n).vertexIndices (m3 + 1) = OP ∧
      (ts.get_triangle_info n).adjacentTriangleIndices m3 = some adj := by
    intro n hn
    obtain ⟨m3, h1, h2, h3⟩ := hsym adj hadjlt (k + 1 + 1) n (hsnv.trans hn)
    rw [fin3_add111 k, hk1, hP2] at h1
    rw [hOP] at h2
    exact ⟨m3, h1, h2, h3⟩
  have hWc : ∀ c, csv = some c → ∃ m4 : Fin 3,
      (ts.get_triangle_info c).vertexIndices m4 = SH ∧
      (ts.get_triangle_info c).vertexIndices (m4 + 1) = P ∧
      (ts.get_triangle_info c).adjacentTriangleIndices m4 = some cur := by
    intro c hc
    obtain ⟨m4, h1, h2, h3⟩ := hsym cur hcur (s + 2) c (hcs.trans hc)
    rw [fin3_add21 s, hSH] at h1
    rw [hP] at h2
    exact ⟨m4, h1, h2, h3⟩
  have GEN : ∀ t i u, t < ts.triangle_count → t ≠ cur → t ≠ adj →
      (ts.get_triangle_info t).adjacentTriangleIndices i = some u →
      (u = cur → a2v ≠ some t) → (u = adj → fnv ≠ some t) →
      ∃ j : Fin 3,
        (ts'.get_triangle_info u).vertexIndices j =
          (ts'.get_triangle_info t).vertexIndices (i + 1) ∧
        (ts'.get_triangle_info u).vertexIndices (j + 1) =
          (ts'.get_triangle_info t).vertexIndices i ∧
        (ts'.get_triangle_info u).adjacentTriangleIndices j = some t := by
    intro t i u ht htc hta hu hvalid1 hvalid2
    obtain ⟨j, hj1, hj2, hj3⟩ := hsym t ht i u hu
    by_cases huc : u = cur
    · subst huc
      have hng := hvalid1 rfl
      rcases fin3_all j s with hjs | hjs | hjs
      · subst hjs
        exact absurd (Option.some.inj (hadj.symm.trans hj3)).symm hta
      · subst hjs
        exact absurd (ha2v.symm.trans hj3) hng
      · subst hjs
        have hcsv : csv = some t := hcs.symm.trans hj3
        refine ⟨0, ?_, ?_, ?_⟩
        · rw [hGcur, hV' t htc hta]
          rw [hP] at hj1
          exact hj1
        · rw [hGcur, hV' t htc hta]
          rw [fin3_add21 s, hSH] at hj2
          exact hj2
        · rw [hGcur]
          exact hcsv
    · by_cases hua : u = adj
      · subst hua
        have hnf := hvalid2 rfl
        rcases fin3_all j k with hjk | hjk | hjk
        · subst hjk
          exact absurd (Option.some.inj (hk3.symm.trans hj3)).symm htc
        · subst hjk
          exact absurd (hfnv.symm.trans hj3) hnf
        · subst hjk
          rw [← fin3_add11 k] at hj1 hj3
          rw [fin3_add21 k, hk1, hP2] at hj2
          have hsnvt : snv = some t := hsnv.symm.trans hj3
          refine ⟨1, ?_, ?_, ?_⟩
          · rw [hGadj, hV' t htc hta]
            rw [hOP] at hj1
            exact hj1
          · rw [hGadj, hV' t htc hta]
            exact hj2
          · rw [hGadj]
            exact hsnvt
      · refine ⟨j, ?_, ?_, ?_⟩
        · rw [hV' u huc hua, hV' t htc hta]; exact hj1
        · rw [hV' u huc hua, hV' t htc hta]; exact hj2
        · exact hApres u t huc hua htc hta j hj3
  intro t ht i u hu
  rw [hcount] at ht
  by_cases htc : t = cur
  · subst t
    rw [hGcur] at hu
    rcases fin3_012 i with hi | hi | hi <;> subst hi
    · replace hu : csv = some u := hu
      have hucur : u ≠ cur := fun h =>
        no_self_adjacent ts hsym hdis cur hcur (s + 2)
          (hcs.trans (hu.trans (congrArg some h)))
      have huadj : u ≠ adj := fun h =>
        hnodup cur hcur s (s + 2) (fin3_sne2 s) adj hadj
          (hcs.trans (hu.trans (congrArg some h)))
      have hna : a2v ≠ some u := fun h =>
        hnodup cur hcur (s + 1) (s + 2) (fin3_s12 s) u (ha2v.trans h)
          (hcs.trans hu)
      obtain ⟨m4, h1, h2, h3⟩ := hWc u hu
      refine ⟨m4, ?_, ?_, ?_⟩
      · rw [hGcur, hV' u hucur huadj]
        exact h1
      · rw [hGcur, hV' u hucur huadj]
        exact h2
      · exact hApresC u hucur huadj hna m4 h3
    · replace hu : fnv = some u := hu
      have hucur : u ≠ cur := fun h =>
        hnodup adj hadjlt k (k + 1) (fin3_sne1 k) cur hk3
          (hfnv.trans (hu.trans (congrArg some h)))
      have huadj : u ≠ adj := fun h =>
        no_self_adjacent ts hsym hdis adj hadjlt (k + 1)
          (hfnv.trans (hu.trans (congrArg some h)))
      obtain ⟨m, h1, h2, h3⟩ := hWf u hu
      refine ⟨m, ?_, ?_, ?_⟩
      · rw [hGcur, hV' u hucur huadj]
        exact h1
      · rw [hGcur, hV' u hucur huadj]
        exact h2
      · exact hArepl1 u hu hucur huadj m h3
    · replace hu : (some adj : Option ℕ) = some u := hu
      have hue := Option.some.inj hu
      subst u
      refine ⟨0, ?_, ?_, ?_⟩
      · rw [hGcur, hGadj]; rfl
      · rw [hGcur, hGadj]; rfl
      · rw [hGadj]; rfl
  · by_cases hta : t = adj
    · subst t
      rw [hGadj] at hu
      rcases fin3_012 i with hi | hi | hi <;> subst hi
      · replace hu : (some cur : Option ℕ) = some u := hu
        have hue := Option.some.inj hu
        subst u
        refine ⟨2, ?_, ?_, ?_⟩
        · rw [hGcur, hGadj]; rfl
        · rw [hGcur, hGadj]; rfl
        · rw [hGcur]; rfl
      · replace hu : snv = some u := hu
        have hucur : u ≠ cur := fun h =>
          hnodup adj hadjlt k (k + 1 + 1) (fin3_sne11 k) cur hk3
            (hsnv.trans (hu.trans (congrArg some h)))
        have huadj : u ≠ adj := fun h =>
          no_self_adjacent ts hsym hdis adj hadjlt (k + 1 + 1)
            (hsnv.trans (hu.trans (congrArg some h)))
        have hnf : fnv ≠ some u := fun h =>
          hnodup adj hadjlt (k + 1) (k + 1 + 1) (fin3_sne1 (k + 1)) u
            (hfnv.trans h) (hsnv.trans hu)
        obtain ⟨m3, h1, h2, h3⟩ := hWn u hu
        refine ⟨m3, ?_, ?_, ?_⟩
        · rw [hGadj, hV' u hucur huadj]
          exact h1
        · rw [hGadj, hV' u hucur huadj]
          exact h2
        · exact hApresA u hucur huadj hnf m3 h3
      · replace hu : a2v = some u := hu
        have hucur : u ≠ cur := fun h =>
          no_self_adjacent ts hsym hdis cur hcur (s + 1)
            (ha2v.trans (hu.trans (congrArg some h)))
        have huadj : u ≠ adj := fun h =>
          hnodup cur hcur s (s + 1) (fin3_sne1 s) adj hadj
            (ha2v.trans (hu.trans (congrArg some h)))
        obtain ⟨m2, h1, h2, h3⟩ := hWg u hu
        refine ⟨m2, ?_, ?_, ?_⟩
        · rw [hGadj, hV' u hucur huadj]
          exact h1
        · rw [hGadj, hV' u hucur huadj]
          exact h2
        · exact hArepl2 u hu hucur huadj m2 h3
    · rw [hA' t htc hta i] at hu
      by_cases hft : fnv = some t
      · rw [if_pos hft] at hu
        by_cases hAi : (ts.get_triangle_info t).adjacentTriangleIndices i = some adj
        · rw [if_pos hAi] at hu
          have hue := Option.some.inj hu
          subst u
          obtain ⟨m, hm1, hm2, hm3⟩ := hWf t hft
          have him : i = m := by
            by_contra hne
            exact hnodup t ht i m hne adj hAi hm3
          subst him
          refine ⟨1, ?_, ?_, ?_⟩
          · rw [hGcur, hV' t htc hta]
            exact hm2.symm
          · rw [hGcur, hV' t htc hta]
            exact hm1.symm
          · rw [hGcur]
            exact hft
        · rw [if_neg hAi] at hu
          exact GEN t i u ht htc hta hu (fun _ h => hfg t t hft h rfl)
            (fun hua => absurd (hua ▸ hu) hAi)
      · rw [if_neg hft] at hu
        by_cases hgt : a2v = some t
        · rw [if_pos hgt] at hu
          by_cases hAi :
              (ts.get_triangle_info t).adjacentTriangleIndices i = some cur
          · rw [if_pos hAi] at hu
            have hue := Option.some.inj hu
            subst u
            obtain ⟨m2, h21, h22, h23⟩ := hWg t hgt
            have him : i = m2 := by
              by_contra hne
              exact hnodup t ht i m2 hne cur hAi h23
            subst him
            refine ⟨2, ?_, ?_, ?_⟩
            · rw [hGadj, hV' t htc hta]
              exact h22.symm
            · rw [hGadj, hV' t htc hta]
              exact h21.symm
            · rw [hGadj]
              exact hgt
          · rw [if_neg hAi] at hu
            exact GEN t i u ht htc hta hu (fun huc => absurd (huc ▸ hu) hAi)
              (fun _ h => hfg t t h hgt rfl)
        · rw [if_neg hgt] at hu
          exact GEN t i u ht htc hta hu (fun _ => hgt) (fun _ => hft)

/-- `swap_edges` preserves adjacency symmetry: the flip of the shared edge
between `current` (whose slot `s` holds `adjacent`) and `adjacent` yields a
mesh in which every adjacency pointer is still mirrored by its target. -/
theorem swap_edges_preserves_symmetry
    (ts : TriangleSet) (ip : TriangleIndexPair) (s : Fin 3)
    (hsym : AdjacencySymmetric ts) (hdis : VertexIndicesDistinct ts)
    (hnodup : AdjacencyNoDup ts)
    (hcur : ip.current < ts.triangle_count)
    (hadj : (ts.get_triangle_info ip.current).adjacentTriangleIndices s =
      some ip.adjacent)
    (res : Option ℕ × Option ℕ) (ts' : TriangleSet)
    (hswap : swap_edges ts ip s = .ok (res, ts')) :
    AdjacencySymmetric ts' := by
  obtain ⟨k, hk1, hk2, hk3⟩ := hsym ip.current hcur s ip.adjacent hadj
  have hadjlt : ip.adjacent < ts.triangle_count :=
    adjacent_lt_of_symmetric ts hsym ip.current hcur s ip.adjacent hadj
  have hfind : firstIndexOfVertex (ts.get_triangle_info ip.adjacent)
      ((ts.get_triangle_info ip.current).vertexIndices s) = some (k + 1) :=
    firstIndexOfVertex_eq _ (hdis ip.adjacent hadjlt) (k + 1) _ hk2
  have hca : ip.current ≠ ip.adjacent := fun h =>
    no_self_adjacent ts hsym hdis ip.current hcur s
      (hadj.trans (congrArg some h.symm))
  unfold swap_edges at hswap
  dsimp only at hswap
  rw [hfind] at hswap
  simp only [Except.ok.injEq, Prod.mk.injEq] at hswap
  obtain ⟨hres, hts⟩ := hswap
  subst hts
  rcases hfn : (ts.get_triangle_info ip.adjacent).adjacentTriangleIndices (k + 1)
    with _ | f
  all_goals rcases ha2 :
    (ts.get_triangle_info ip.current).adjacentTriangleIndices (s + 1) with _ | g
  all_goals dsimp only
  · -- no outward neighbours to rewire
    refine swap_core_symmetric ts _ ip.current ip.adjacent s k hsym hdis hnodup
      hcur hadj hadjlt hk1 hk2 hk3 _ _ _ _ _ _ _ _ rfl rfl rfl rfl rfl hfn rfl
      ha2 ?_ ?_
    · rw [count_replace_triangle, count_replace_triangle]
    · intro u
      by_cases huc : u = ip.current
      · subst u
        rw [get_info_replace_triangle _ ip.current _ ip.current
            (by rw [count_replace_triangle]; exact hcur), if_pos rfl, if_pos rfl]
        rfl
      · by_cases hua : u = ip.adjacent
        · subst u
          rw [get_info_replace_triangle _ ip.current _ ip.adjacent
              (by rw [count_replace_triangle]; exact hcur),
            if_neg (fun h => hca h.symm),
            get_info_replace_triangle _ ip.adjacent _ ip.adjacent hadjlt,
            if_pos rfl, if_neg (fun h => hca h.symm), if_pos rfl]
          rfl
        · rw [get_info_replace_triangle _ ip.current _ u
              (by rw [count_replace_triangle]; exact hcur), if_neg huc,
            get_info_replace_triangle _ ip.adjacent _ u hadjlt, if_neg hua,
            if_neg huc, if_neg hua, if_neg (fun h => Option.noConfusion h),
            if_neg (fun h => Option.noConfusion h)]
  · -- only the current triangle's outward neighbour g
    have hglt : g < ts.triangle_count :=
      adjacent_lt_of_symmetric ts hsym ip.current hcur (s + 1) g ha2
    have hgc : g ≠ ip.current := fun h =>
      no_self_adjacent ts hsym hdis ip.current hcur (s + 1)
        (ha2.trans (congrArg some h))
    have hga : g ≠ ip.adjacent := fun h =>
      hnodup ip.current hcur s (s + 1) (fin3_sne1 s) ip.adjacent hadj
        (ha2.trans (congrArg some h))
    refine swap_core_symmetric ts _ ip.current ip.adjacent s k hsym hdis hnodup
      hcur hadj hadjlt hk1 hk2 hk3 _ _ _ _ _ _ _ _ rfl rfl rfl rfl rfl hfn rfl
      ha2 ?_ ?_
    · rw [count_replace_adjacent, count_replace_triangle, count_replace_triangle]
    · intro u
      rw [get_info_replace_adjacent _ g (some ip.current) (some ip.adjacent) u
        (by rw [count_replace_triangle, count_replace_triangle]; exact hglt)]
      by_cases huc : u = ip.current
      · subst u
        rw [if_neg (fun h => hgc h.symm),
          get_info_replace_triangle _ ip.current _ ip.current
            (by rw [count_replace_triangle]; exact hcur), if_pos rfl, if_pos rfl]
        rfl
      · by_cases hua : u = ip.adjacent
        · subst u
          rw [if_neg (fun h => hga h.symm),
            get_info_replace_triangle _ ip.current _ ip.adjacent
              (by rw [count_replace_triangle]; exact hcur),
            if_neg (fun h => hca h.symm),
            get_info_replace_triangle _ ip.adjacent _ ip.adjacent hadjlt,
            if_pos rfl, if_neg (fun h => hca h.symm), if_pos rfl]
          rfl
        · by_cases hug : u = g
          · subst u
            rw [if_pos rfl,
              get_info_replace_triangle _ ip.current _ g
                (by rw [count_replace_triangle]; exact hcur), if_neg hgc,
              get_info_replace_triangle _ ip.adjacent _ g hadjlt, if_neg hga,
              if_neg hgc, if_neg hga, if_neg (fun h => Option.noConfusion h),
              if_pos rfl]
          · rw [if_neg hug,
              get_info_replace_triangle _ ip.current _ u
                (by rw [count_replace_triangle]; exact hcur), if_neg huc,
              get_info_replace_triangle _ ip.adjacent _ u hadjlt, if_neg hua,
              if_neg huc, if_neg hua, if_neg (fun h => Option.noConfusion h),
              if_neg (fun h => hug (Option.some.inj h).symm)]
  · -- only the adjacent triangle's outward neighbour f
    have hflt : f < ts.triangle_count :=
      adjacent_lt_of_symmetric ts hsym ip.adjacent hadjlt (k + 1) f hfn
    have hfc : f ≠ ip.current := fun h =>
      hnodup ip.adjacent hadjlt k (k + 1) (fin3_sne1 k) ip.current hk3
        (hfn.trans (congrArg some h))
    have hfa : f ≠ ip.adjacent := fun h =>
      no_self_adjacent ts hsym hdis ip.adjacent hadjlt (k + 1)
        (hfn.trans (congrArg some h))
    refine swap_core_symmetric ts _ ip.current ip.adjacent s k hsym hdis hnodup
      hcur hadj hadjlt hk1 hk2 hk3 _ _ _ _ _ _ _ _ rfl rfl rfl rfl rfl hfn rfl
      ha2 ?_ ?_
    · rw [count_replace_adjacent, count_replace_triangle, count_replace_triangle]
    · intro u
      rw [get_info_replace_adjacent _ f (some ip.adjacent) (some ip.current) u
        (by rw [count_replace_triangle, count_replace_triangle]; exact hflt)]
      by_cases huc : u = ip.current
      · subst u
        rw [if_neg (fun h => hfc h.symm),
          get_info_replace_triangle _ ip.current _ ip.current
            (by rw [count_replace_triangle]; exact hcur), if_pos rfl, if_pos rfl]
        rfl
      · by_cases hua : u = ip.adjacent
        · subst u
          rw [if_neg (fun h => hfa h.symm),
            get_info_replace_triangle _ ip.current _ ip.adjacent
              (by rw [count_replace_triangle]; exact hcur),
            if_neg (fun h => hca h.symm),
            get_info_replace_triangle _ ip.adjacent _ ip.adjacent hadjlt,
            if_pos rfl, if_neg (fun h => hca h.symm), if_pos rfl]
          rfl
        · by_cases huf : u = f
          · subst u
            rw [if_pos rfl,
              get_info_replace_triangle _ ip.current _ f
                (by rw [count_replace_triangle]; exact hcur), if_neg hfc,
              get_info_replace_triangle _ ip.adjacent _ f hadjlt, if_neg hfa,
              if_neg hfc, if_neg hfa, if_pos rfl]
          · rw [if_neg huf,
              get_info_replace_triangle _ ip.current _ u
                (by rw [count_replace_triangle]; exact hcur), if_neg huc,
              get_info_replace_triangle _ ip.adjacent _ u hadjlt, if_neg hua,
              if_neg huc, if_neg hua,
              if_neg (fun h => huf (Option.some.inj h).symm),
              if_neg (fun h => Option.noConfusion h)]
  · -- both outward neighbours exist
    have hflt : f < ts.triangle_count :=
      adjacent_lt_of_symmetric ts hsym ip.adjacent hadjlt (k + 1) f hfn
    have hglt : g < ts.triangle_count :=
      adjacent_lt_of_symmetric ts hsym ip.current hcur (s + 1) g ha2
    have hfc : f ≠ ip.current := fun h =>
      hnodup ip.adjacent hadjlt k (k + 1) (fin3_sne1 k) ip.current hk3
        (hfn.trans (congrArg some h))
    have hfa : f ≠ ip.adjacent := fun h =>
      no_self_adjacent ts hsym hdis ip.adjacent hadjlt (k + 1)
        (hfn.trans (congrArg some h))
    have hgc : g ≠ ip.current := fun h =>
      no_self_adjacent ts hsym hdis ip.current hcur (s + 1)
        (ha2.trans (congrArg some h))
    have hga : g ≠ ip.adjacent := fun h =>
      hnodup ip.current hcur s (s + 1) (fin3_sne1 s) ip.adjacent hadj
        (ha2.trans (congrArg some h))
    have hfg : f ≠ g :=
      swap_targets_distinct ts ip.current ip.adjacent s k hsym hdis hcur hadjlt
        hca hk1 hk2 f g hfn ha2
    refine swap_core_symmetric ts _ ip.current ip.adjacent s k hsym hdis hnodup
      hcur hadj hadjlt hk1 hk2 hk3 _ _ _ _ _ _ _ _ rfl rfl rfl rfl rfl hfn rfl
      ha2 ?_ ?_
    · rw [count_replace_adjacent, count_replace_adjacent, count_replace_triangle,
        count_replace_triangle]
    · intro u
      rw [get_info_replace_adjacent _ g (some ip.current) (some ip.adjacent) u
        (by rw [count_replace_adjacent, count_replace_triangle,
              count_replace_triangle]
            exact hglt)]
      by_cases huc : u = ip.current
      · subst u
        rw [if_neg (fun h => hgc h.symm),
          get_info_replace_adjacent _ f (some ip.adjacent) (some ip.current)
            ip.current
            (by rw [count_replace_triangle, count_replace_triangle]
                exact hflt),
          if_neg (fun h => hfc h.symm),
          get_info_replace_triangle _ ip.current _ ip.current
            (by rw [count_replace_triangle]; exact hcur), if_pos rfl, if_pos rfl]
        rfl
      · by_cases hua : u = ip.adjacent
        · subst u
          rw [if_neg (fun h => hga h.symm),
            get_info_replace_adjacent _ f (some ip.adjacent) (some ip.current)
              ip.adjacent
              (by rw [count_replace_triangle, count_replace_triangle]
                  exact hflt),
            if_neg (fun h => hfa h.symm),
            get_info_replace_triangle _ ip.current _ ip.adjacent
              (by rw [count_replace_triangle]; exact hcur),
            if_neg (fun h => hca h.symm),
            get_info_replace_triangle _ ip.adjacent _ ip.adjacent hadjlt,
            if_pos rfl, if_neg (fun h => hca h.symm), if_pos rfl]
          rfl
        · by_cases huf : u = f
          · subst u
            rw [if_neg hfg,
              get_info_replace_adjacent _ f (some ip.adjacent) (some ip.current)
                f
                (by rw [count_replace_triangle, count_replace_triangle]
                    exact hflt),
              if_pos rfl,
              get_info_replace_triangle _ ip.current _ f
                (by rw [count_replace_triangle]; exact hcur), if_neg hfc,
              get_info_replace_triangle _ ip.adjacent _ f hadjlt, if_neg hfa,
              if_neg hfc, if_neg hfa, if_pos rfl]
          · by_cases hug : u = g
            · subst u
              rw [if_pos rfl,
                get_info_replace_adjacent _ f (some ip.adjacent) (some ip.current)
                  g
                  (by rw [count_replace_triangle, count_replace_triangle]
                      exact hflt),
                if_neg (fun h => hfg h.symm),
                get_info_replace_triangle _ ip.current _ g
                  (by rw [count_replace_triangle]; exact hcur), if_neg hgc,
                get_info_replace_triangle _ ip.adjacent _ g hadjlt, if_neg hga,
                if_neg hgc, if_neg hga,
                if_neg (fun h => hfg (Option.some.inj h)), if_pos rfl]
            · rw [if_neg hug,
                get_info_replace_adjacent _ f (some ip.adjacent) (some ip.current)
                  u
                  (by rw [count_replace_triangle, count_replace_triangle]
                      exact hflt),
                if_neg huf,
                get_info_replace_triangle _ ip.current _ u
                  (by rw [count_replace_triangle]; exact hcur), if_neg huc,
                get_info_replace_triangle _ ip.adjacent _ u hadjlt, if_neg hua,
                if_neg huc, if_neg hua,
                if_neg (fun h => huf (Option.some.inj h).symm),
                if_neg (fun h => hug (Option.some.inj h).symm)]

/-- Core of the point-insertion symmetry argument: any mesh whose triangle
table is described slot-for-slot by the three-way split of triangle `T`
at the new point `p` (hypothesis `hG`) is again adjacency-symmetric. -/
theorem split_core_symmetric (ts ts' : TriangleSet) (T p : ℕ)
    (hsym : AdjacencySymmetric ts) (hdis : VertexIndicesDistinct ts)
    (hnodup : AdjacencyNoDup ts)
    (hT : T < ts.triangle_count)
    (V0 V1 V2 : ℕ) (A0 A1 A2 : Option ℕ)
    (hV0 : (ts.get_triangle_info T).vertexIndices 0 = V0)
    (hV1 : (ts.get_triangle_info T).vertexIndices 1 = V1)
    (hV2 : (ts.get_triangle_info T).vertexIndices 2 = V2)
    (hA0 : (ts.get_triangle_info T).adjacentTriangleIndices 0 = A0)
    (hA1 : (ts.get_triangle_info T).adjacentTriangleIndices 1 = A1)
    (hA2 : (ts.get_triangle_info T).adjacentTriangleIndices 2 = A2)
    (hcount : ts'.triangle_count = ts.triangle_count + 2)
    (hG : ∀ u, ts'.get_triangle_info u =
      if u = T then
        ⟨p, V1, V2, some ts.triangle_count, A1, some (ts.triangle_count + 1)⟩
      else if u = ts.triangle_count then
        ⟨p, V0, V1, some (ts.triangle_count + 1), A0, some T⟩
      else if u = ts.triangle_count + 1 then
        ⟨p, V2, V0, some T, A2, some ts.triangle_count⟩
      else if A0 = some u then
        replaceAdjInfo (ts.get_triangle_info u) (some T) (some ts.triangle_count)
      else if A2 = some u then
        replaceAdjInfo (ts.get_triangle_info u) (some T)
          (some (ts.triangle_count + 1))
      else ts.get_triangle_info u) :
    AdjacencySymmetric ts' := by
  have hTL : T ≠ ts.triangle_count := Nat.ne_of_lt hT
  have hTL1 : T ≠ ts.triangle_count + 1 := by omega
  have hGT : ts'.get_triangle_info T =
      ⟨p, V1, V2, some ts.triangle_count, A1, some (ts.triangle_count + 1)⟩ := by
    rw [hG T, if_pos rfl]
  have hGL : ts'.get_triangle_info ts.triangle_count =
      ⟨p, V0, V1, some (ts.triangle_count + 1), A0, some T⟩ := by
    rw [hG ts.triangle_count, if_neg (fun h => hTL h.symm), if_pos rfl]
  have hGL1 : ts'.get_triangle_info (ts.triangle_count + 1) =
      ⟨p, V2, V0, some T, A2, some ts.triangle_count⟩ := by
    rw [hG (ts.triangle_count + 1), if_neg (fun h => hTL1 h.symm),
      if_neg (by omega), if_pos rfl]
  have hV' : ∀ u, u ≠ T → u ≠ ts.triangle_count → u ≠ ts.triangle_count + 1 →
      ∀ j, (ts'.get_triangle_info u).vertexIndices j =
        (ts.get_triangle_info u).vertexIndices j := by
    intro u huT huL huL1 j
    rw [hG u, if_neg huT, if_neg huL, if_neg huL1]
    by_cases hau : A0 = some u
    · rw [if_pos hau]; exact verts_replaceAdjInfo _ _ _ j
    · rw [if_neg hau]
      by_cases hbu : A2 = some u
      · rw [if_pos hbu]; exact verts_replaceAdjInfo _ _ _ j
      · rw [if_neg hbu]
  have hA' : ∀ u, u ≠ T → u ≠ ts.triangle_count → u ≠ ts.triangle_count + 1 →
      ∀ j, (ts'.get_triangle_info u).adjacentTriangleIndices j =
        if A0 = some u then
          (if (ts.get_triangle_info u).adjacentTriangleIndices j = some T
            then some ts.triangle_count
            else (ts.get_triangle_info u).adjacentTriangleIndices j)
        else if A2 = some u then
          (if (ts.get_triangle_info u).adjacentTriangleIndices j = some T
            then some (ts.triangle_count + 1)
            else (ts.get_triangle_info u).adjacentTriangleIndices j)
        else (ts.get_triangle_info u).adjacentTriangleIndices j := by
    intro u huT huL huL1 j
    rw [hG u, if_neg huT, if_neg huL, if_neg huL1]
    by_cases hau : A0 = some u
    · rw [if_pos hau, if_pos hau]; exact adj_replaceAdjInfo _ _ _ j
    · rw [if_neg hau, if_neg hau]
      by_cases hbu : A2 = some u
      · rw [if_pos hbu, if_pos hbu]; exact adj_replaceAdjInfo _ _ _ j
      · rw [if_neg hbu, if_neg hbu]
  have hApres : ∀ u w, u ≠ T → u ≠ ts.triangle_count →
      u ≠ ts.triangle_count + 1 → w ≠ T → ∀ j,
      (ts.get_triangle_info u).adjacentTriangleIndices j = some w →
      (ts'.get_triangle_info u).adjacentTriangleIndices j = some w := by
    intro u w huT huL huL1 hwT j hj
    have hnc : (ts.get_triangle_info u).adjacentTriangleIndices j ≠ some T := by
      rw [hj]; intro hh; exact hwT (Option.some.inj hh)
    rw [hA' u huT huL huL1 j]
    by_cases hau : A0 = some u
    · rw [if_pos hau, if_neg hnc]; exact hj
    · rw [if_neg hau]
      by_cases hbu : A2 = some u
      · rw [if_pos hbu, if_neg hnc]; exact hj
      · rw [if_neg hbu]; exact hj
  have hApresT : ∀ u, u ≠ T → u ≠ ts.triangle_count →
      u ≠ ts.triangle_count + 1 → A0 ≠ some u → A2 ≠ some u → ∀ j,
      (ts.get_triangle_info u).adjacentTriangleIndices j = some T →
      (ts'.get_triangle_info u).adjacentTriangleIndices j = some T := by
    intro u huT huL huL1 hnA0 hnA2 j hj
    rw [hA' u huT huL huL1 j, if_neg hnA0, if_neg hnA2]
    exact hj
  have hAreplA : ∀ u, A0 = some u → u ≠ T → u ≠ ts.triangle_count →
      u ≠ ts.triangle_count + 1 → ∀ j,
      (ts.get_triangle_info u).adjacentTriangleIndices j = some T →
      (ts'.get_triangle_info u).adjacentTriangleIndices j =
        some ts.triangle_count := by
    intro u hau huT huL huL1 j hj
    rw [hA' u huT huL huL1 j, if_pos hau, if_pos hj]
  have hAreplB : ∀ u, A2 = some u → A0 ≠ some u → u ≠ T →
      u ≠ ts.triangle_count → u ≠ ts.triangle_count + 1 → ∀ j,
      (ts.get_triangle_info u).adjacentTriangleIndices j = some T →
      (ts'.get_triangle_info u).adjacentTriangleIndices j =
        some (ts.triangle_count + 1) := by
    intro u hbu hnA0 huT huL huL1 j hj
    rw [hA' u huT huL huL1 j, if_neg hnA0, if_pos hbu, if_pos hj]
  have hWa : ∀ x, A0 = some x → ∃ m : Fin 3,
      (ts.get_triangle_info x).vertexIndices m = V1 ∧
      (ts.get_triangle_info x).vertexIndices (m + 1) = V0 ∧
      (ts.get_triangle_info x).adjacentTriangleIndices m = some T := by
    intro x hx
    obtain ⟨m, h1, h2, h3⟩ := hsym T hT 0 x (hA0.trans hx)
    rw [show ((0 : Fin 3) + 1) = 1 from rfl, hV1] at h1
    rw [hV0] at h2
    exact ⟨m, h1, h2, h3⟩
  have hWd : ∀ x, A1 = some x → ∃ m : Fin 3,
      (ts.get_triangle_info x).vertexIndices m = V2 ∧
      (ts.get_triangle_info x).vertexIndices (m + 1) = V1 ∧
      (ts.get_triangle_info x).adjacentTriangleIndices m = some T := by
    intro x hx
    obtain ⟨m, h1, h2, h3⟩ := hsym T hT 1 x (hA1.trans hx)
    rw [show ((1 : Fin 3) + 1) = 2 from rfl, hV2] at h1
    rw [hV1] at h2
    exact ⟨m, h1, h2, h3⟩
  have hWb : ∀ x, A2 = some x → ∃ m : Fin 3,
      (ts.get_triangle_info x).vertexIndices m = V0 ∧
      (ts.get_triangle_info x).vertexIndices (m + 1) = V2 ∧
      (ts.get_triangle_info x).adjacentTriangleIndices m = some T := by
    intro x hx
    obtain ⟨m, h1, h2, h3⟩ := hsym T hT 2 x (hA2.trans hx)
    rw [show ((2 : Fin 3) + 1) = 0 from rfl, hV0] at h1
    rw [hV2] at h2
    exact ⟨m, h1, h2, h3⟩
  have GEN : ∀ t i u, t < ts.triangle_count → t ≠ T →
      (ts.get_triangle_info t).adjacentTriangleIndices i = some u →
      (u = T → A0 ≠ some t ∧ A2 ≠ some t) →
      ∃ j : Fin 3,
        (ts'.get_triangle_info u).vertexIndices j =
          (ts'.get_triangle_info t).vertexIndices (i + 1) ∧
        (ts'.get_triangle_info u).vertexIndices (j + 1) =
          (ts'.get_triangle_info t).vertexIndices i ∧
        (ts'.get_triangle_info u).adjacentTriangleIndices j = some t := by
    intro t i u ht htT hu hvalid
    obtain ⟨j, hj1, hj2, hj3⟩ := hsym t ht i u hu
    have htL : t ≠ ts.triangle_count := Nat.ne_of_lt ht
    have htL1 : t ≠ ts.triangle_count + 1 := by omega
    by_cases huT : u = T
    · subst u
      obtain ⟨hnA0, hnA2⟩ := hvalid rfl
      rcases fin3_012 j with hj | hj | hj <;> subst hj
      · exact absurd (hA0.symm.trans hj3) hnA0
      · rw [hV1] at hj1
        rw [show ((1 : Fin 3) + 1) = 2 from rfl, hV2] at hj2
        refine ⟨1, ?_, ?_, ?_⟩
        · rw [hGT, hV' t htT htL htL1]
          exact hj1
        · rw [hGT, hV' t htT htL htL1]
          exact hj2
        · rw [hGT]
          exact hA1.symm.trans hj3
      · exact absurd (hA2.symm.trans hj3) hnA2
    · have hulT : u < ts.triangle_count :=
        adjacent_lt_of_symmetric ts hsym t ht i u hu
      have huL : u ≠ ts.triangle_count := Nat.ne_of_lt hulT
      have huL1 : u ≠ ts.triangle_count + 1 := by omega
      refine ⟨j, ?_, ?_, ?_⟩
      · rw [hV' u huT huL huL1, hV' t htT htL htL1]; exact hj1
      · rw [hV' u huT huL huL1, hV' t htT htL htL1]; exact hj2
      · exact hApres u t huT huL huL1 htT j hj3
  intro t ht i u hu
  rw [hcount] at ht
  by_cases htT : t = T
  · subst t
    rw [hGT] at hu
    rcases fin3_012 i with hi | hi | hi <;> subst hi
    · replace hu : (some ts.triangle_count : Option ℕ) = some u := hu
      have hue := Option.some.inj hu
      subst u
      refine ⟨2, ?_, ?_, ?_⟩
      · rw [hGL, hGT]; rfl
      · rw [hGL, hGT]; rfl
      · rw [hGL]; rfl
    · replace hu : A1 = some u := hu
      have hulT : u < ts.triangle_count :=
        adjacent_lt_of_symmetric ts hsym T hT 1 u (hA1.trans hu)
      have huT : u ≠ T := fun h =>
        no_self_adjacent ts hsym hdis T hT 1
          (hA1.trans (hu.trans (congrArg some h)))
      have huL : u ≠ ts.triangle_count := Nat.ne_of_lt hulT
      have huL1 : u ≠ ts.triangle_count + 1 := by omega
      have hnA0 : A0 ≠ some u := fun h =>
        hnodup T hT 0 1 (by decide) u (hA0.trans h) (hA1.trans hu)
      have hnA2 : A2 ≠ some u := fun h =>
        hnodup T hT 2 1 (by decide) u (hA2.trans h) (hA1.trans hu)
      obtain ⟨md, h1, h2, h3⟩ := hWd u hu
      refine ⟨md, ?_, ?_, ?_⟩
      · rw [hGT, hV' u huT huL huL1]; exact h1
      · rw [hGT, hV' u huT huL huL1]; exact h2
      · exact hApresT u huT huL huL1 hnA0 hnA2 md h3
    · replace hu : (some (ts.triangle_count + 1) : Option ℕ) = some u := hu
      have hue := Option.some.inj hu
      subst u
      refine ⟨0, ?_, ?_, ?_⟩
      · rw [hGL1, hGT]; rfl
      · rw [hGL1, hGT]; rfl
      · rw [hGL1]; rfl
  · by_cases htL : t = ts.triangle_count
    · subst t
      rw [hGL] at hu
      rcases fin3_012 i with hi | hi | hi <;> subst hi
      · replace hu : (some (ts.triangle_count + 1) : Option ℕ) = some u := hu
        have hue := Option.some.inj hu
        subst u
        refine ⟨2, ?_, ?_, ?_⟩
        · rw [hGL1, hGL]; rfl
        · rw [hGL1, hGL]; rfl
        · rw [hGL1]; rfl
      · replace hu : A0 = some u := hu
        have hulT : u < ts.triangle_count :=
          adjacent_lt_of_symmetric ts hsym T hT 0 u (hA0.trans hu)
        have huT : u ≠ T := fun h =>
          no_self_adjacent ts hsym hdis T hT 0
            (hA0.trans (hu.trans (congrArg some h)))
        have huL : u ≠ ts.triangle_count := Nat.ne_of_lt hulT
        have huL1 : u ≠ ts.triangle_count + 1 := by omega
        obtain ⟨ma, h1, h2, h3⟩ := hWa u hu
        refine ⟨ma, ?_, ?_, ?_⟩
        · rw [hGL, hV' u huT huL huL1]; exact h1
        · rw [hGL, hV' u huT huL huL1]; exact h2
        · exact hAreplA u hu huT huL huL1 ma h3
      · replace hu : (some T : Option ℕ) = some u := hu
        have hue := Option.some.inj hu
        subst u
        refine ⟨0, ?_, ?_, ?_⟩
        · rw [hGT, hGL]; rfl
        · rw [hGT, hGL]; rfl
        · rw [hGT]; rfl
    · by_cases htL1 : t = ts.triangle_count + 1
      · subst t
        rw [hGL1] at hu
        rcases fin3_012 i with hi | hi | hi <;> subst hi
        · replace hu : (some T : Option ℕ) = some u := hu
          have hue := Option.some.inj hu
          subst u
          refine ⟨2, ?_, ?_, ?_⟩
          · rw [hGT, hGL1]; rfl
          · rw [hGT, hGL1]; rfl
          · rw [hGT]; rfl
        · replace hu : A2 = some u := hu
          have hulT : u < ts.triangle_count :=
            adjacent_lt_of_symmetric ts hsym T hT 2 u (hA2.trans hu)
          have huT : u ≠ T := fun h =>
            no_self_adjacent ts hsym hdis T hT 2
              (hA2.trans (hu.trans (congrArg some h)))
          have huL : u ≠ ts.triangle_count := Nat.ne_of_lt hulT
          have huL1 : u ≠ ts.triangle_count + 1 := by omega
          have hnA0 : A0 ≠ some u := fun h =>
            hnodup T hT 0 2 (by decide) u (hA0.trans h) (hA2.trans hu)
          obtain ⟨mb, h1, h2, h3⟩ := hWb u hu
          refine ⟨mb, ?_, ?_, ?_⟩
          · rw [hGL1, hV' u huT huL huL1]; exact h1
          · rw [hGL1, hV' u huT huL huL1]; exact h2
          · exact hAreplB u hu hnA0 huT huL huL1 mb h3
        · replace hu : (some ts.triangle_count : Option ℕ) = some u := hu
          have hue := Option.some.inj hu
          subst u
          refine ⟨0, ?_, ?_, ?_⟩
          · rw [hGL, hGL1]; rfl
          · rw [hGL, hGL1]; rfl
          · rw [hGL]; rfl
      · have ht' : t < ts.triangle_count := by omega
        rw [hA' t htT htL htL1 i] at hu
        by_cases hat : A0 = some t
        · rw [if_pos hat] at hu
          by_cases hAi :
              (ts.get_triangle_info t).adjacentTriangleIndices i = some T
          · rw [if_pos hAi] at hu
            have hue := Option.some.inj hu
            subst u
            obtain ⟨ma, h1, h2, h3⟩ := hWa t hat
            have him : i = ma := by
              by_contra hne
              exact hnodup t ht' i ma hne T hAi h3
            subst i
            refine ⟨1, ?_, ?_, ?_⟩
            · rw [hGL, hV' t htT htL htL1]
              exact h2.symm
            · rw [hGL, hV' t htT htL htL1]
              exact h1.symm
            · rw [hGL]
              exact hat
          · rw [if_neg hAi] at hu
            exact GEN t i u ht' htT hu (fun hu' => absurd (hu' ▸ hu) hAi)
        · rw [if_neg hat] at hu
          by_cases hbt : A2 = some t
          · rw [if_pos hbt] at hu
            by_cases hAi :
                (ts.get_triangle_info t).adjacentTriangleIndices i = some T
            · rw [if_pos hAi] at hu
              have hue := Option.some.inj hu
              subst u
              obtain ⟨mb, h1, h2, h3⟩ := hWb t hbt
              have him : i = mb := by
                by_contra hne
                exact hnodup t ht' i mb hne T hAi h3
              subst i
              refine ⟨1, ?_, ?_, ?_⟩
              · rw [hGL1, hV' t htT htL htL1]
                exact h2.symm
              · rw [hGL1, hV' t htT htL htL1]
                exact h1.symm
              · rw [hGL1]
                exact hbt
            · rw [if_neg hAi] at hu
              exact GEN t i u ht' htT hu (fun hu' => absurd (hu' ▸ hu) hAi)
          · rw [if_neg hbt] at hu
            exact GEN t i u ht' htT hu (fun _ => ⟨hat, hbt⟩)

/-- The three-way split of `triangulate_point` step 5 preserves adjacency
symmetry: after `insert_point_in_triangle` every adjacency pointer of the
grown mesh is still mirrored by its target. -/
theorem insert_point_preserves_symmetry (ts : TriangleSet) (t p : ℕ)
    (hsym : AdjacencySymmetric ts) (hdis : VertexIndicesDistinct ts)
    (hnodup : AdjacencyNoDup ts) (hT : t < ts.triangle_count) :
    AdjacencySymmetric (insert_point_in_triangle ts t p).2.2 := by
  have htL : t ≠ ts.triangle_count := Nat.ne_of_lt hT
  have htL1 : t ≠ ts.triangle_count + 1 := by omega
  unfold insert_point_in_triangle
  dsimp only [TriangleInfo.adjacentTriangleIndices, TriangleInfo.with_adjacent,
    TriangleInfo.new]
  rcases ha0 : (ts.get_triangle_info t).a0 with _ | a
  all_goals rcases ha2 : (ts.get_triangle_info t).a2 with _ | b
  all_goals simp only [fst_add_triangle_info, count_snd_add_triangle_info]
  · -- no outward neighbours
    refine split_core_symmetric ts _ t p hsym hdis hnodup hT _ _ _ _ _ _
      rfl rfl rfl ha0 rfl ha2 ?_ ?_
    · rw [count_set_adjacent, count_set_adjacent, count_set_vertex,
        count_set_adjacent, count_snd_add_triangle_info,
        count_snd_add_triangle_info]
    · intro u
      by_cases huT : u = t
      · subst u
        rw [get_info_set_adjacent _ t 2 (some (ts.triangle_count + 1)) t
            (by rw [count_set_adjacent, count_set_vertex, count_set_adjacent, count_snd_add_triangle_info, count_snd_add_triangle_info]; omega),
          if_pos rfl,
          get_info_set_adjacent _ t 0 (some ts.triangle_count) t
            (by rw [count_set_vertex, count_set_adjacent, count_snd_add_triangle_info, count_snd_add_triangle_info]; omega),
          if_pos rfl,
          get_info_set_vertex _ t 0 p t
            (by rw [count_set_adjacent, count_snd_add_triangle_info, count_snd_add_triangle_info]; omega),
          if_pos rfl,
          get_info_set_adjacent _ ts.triangle_count 0
            (some (ts.triangle_count + 1)) t
            (by rw [count_snd_add_triangle_info, count_snd_add_triangle_info]; omega),
          if_neg htL,
          get_info_add_triangle_info _ _ t, count_snd_add_triangle_info,
          if_neg htL1,
          get_info_add_triangle_info _ _ t, if_neg htL, if_pos rfl]
        rfl
      · by_cases huL : u = ts.triangle_count
        · subst u
          rw [get_info_set_adjacent _ t 2 (some (ts.triangle_count + 1))
              ts.triangle_count
              (by rw [count_set_adjacent, count_set_vertex, count_set_adjacent, count_snd_add_triangle_info, count_snd_add_triangle_info]; omega),
            if_neg (fun h => htL h.symm),
            get_info_set_adjacent _ t 0 (some ts.triangle_count)
              ts.triangle_count
              (by rw [count_set_vertex, count_set_adjacent, count_snd_add_triangle_info, count_snd_add_triangle_info]; omega),
            if_neg (fun h => htL h.symm),
            get_info_set_vertex _ t 0 p ts.triangle_count
              (by rw [count_set_adjacent, count_snd_add_triangle_info, count_snd_add_triangle_info]; omega),
            if_neg (fun h => htL h.symm),
            get_info_set_adjacent _ ts.triangle_count 0
              (some (ts.triangle_count + 1)) ts.triangle_count
              (by rw [count_snd_add_triangle_info, count_snd_add_triangle_info]; omega),
            if_pos rfl,
            get_info_add_triangle_info _ _ ts.triangle_count,
            count_snd_add_triangle_info,
            if_neg (by omega),
            get_info_add_triangle_info _ _ ts.triangle_count, if_pos rfl,
            if_neg (fun h => htL h.symm), if_pos rfl]
          rfl
        · by_cases huL1 : u = ts.triangle_count + 1
          · subst u
            rw [get_info_set_adjacent _ t 2 (some (ts.triangle_count + 1))
                (ts.triangle_count + 1)
                (by rw [count_set_adjacent, count_set_vertex, count_set_adjacent, count_snd_add_triangle_info, count_snd_add_triangle_info]; omega),
              if_neg (fun h => htL1 h.symm),
              get_info_set_adjacent _ t 0 (some ts.triangle_count)
                (ts.triangle_count + 1)
                (by rw [count_set_vertex, count_set_adjacent, count_snd_add_triangle_info, count_snd_add_triangle_info]; omega),
              if_neg (fun h => htL1 h.symm),
              get_info_set_vertex _ t 0 p (ts.triangle_count + 1)
                (by rw [count_set_adjacent, count_snd_add_triangle_info, count_snd_add_triangle_info]; omega),
              if_neg (fun h => htL1 h.symm),
              get_info_set_adjacent _ ts.triangle_count 0
                (some (ts.triangle_count + 1)) (ts.triangle_count + 1)
                (by rw [count_snd_add_triangle_info, count_snd_add_triangle_info]; omega),
              if_neg (by omega),
              get_info_add_triangle_info _ _ (ts.triangle_count + 1),
              count_snd_add_triangle_info,
              if_pos rfl,
              if_neg (fun h => htL1 h.symm), if_neg (by omega), if_pos rfl]
          · rw [get_info_set_adjacent _ t 2 (some (ts.triangle_count + 1)) u
                (by rw [count_set_adjacent, count_set_vertex, count_set_adjacent, count_snd_add_triangle_info, count_snd_add_triangle_info]; omega),
              if_neg huT,
              get_info_set_adjacent _ t 0 (some ts.triangle_count) u
                (by rw [count_set_vertex, count_set_adjacent, count_snd_add_triangle_info, count_snd_add_triangle_info]; omega),
              if_neg huT,
              get_info_set_vertex _ t 0 p u
                (by rw [count_set_adjacent, count_snd_add_triangle_info, count_snd_add_triangle_info]; omega),
              if_neg huT,
              get_info_set_adjacent _ ts.triangle_count 0
                (some (ts.triangle_count + 1)) u
                (by rw [count_snd_add_triangle_info, count_snd_add_triangle_info]; omega),
              if_neg huL,
              get_info_add_triangle_info _ _ u, count_snd_add_triangle_info,
              if_neg huL1,
              get_info_add_triangle_info _ _ u, if_neg huL,
              if_neg huT, if_neg huL, if_neg huL1,
              if_neg (fun h => Option.noConfusion h),
              if_neg (fun h => Option.noConfusion h)]
  · -- only the neighbour b across edge 2
    have hblt : b < ts.triangle_count :=
      adjacent_lt_of_symmetric ts hsym t hT 2 b ha2
    have hbT : b ≠ t := fun h =>
      no_self_adjacent ts hsym hdis t hT 2 (ha2.trans (congrArg some h))
    have hbL : b ≠ ts.triangle_count := Nat.ne_of_lt hblt
    have hbL1 : b ≠ ts.triangle_count + 1 := by omega
    refine split_core_symmetric ts _ t p hsym hdis hnodup hT _ _ _ _ _ _
      rfl rfl rfl ha0 rfl ha2 ?_ ?_
    · rw [count_set_adjacent, count_set_adjacent, count_set_vertex,
        count_replace_adjacent, count_set_adjacent,
        count_snd_add_triangle_info, count_snd_add_triangle_info]
    · intro u
      by_cases huT : u = t
      · subst u
        rw [get_info_set_adjacent _ t 2 (some (ts.triangle_count + 1)) t
            (by rw [count_set_adjacent, count_set_vertex, count_replace_adjacent, count_set_adjacent, count_snd_add_triangle_info, count_snd_add_triangle_info]; omega),
          if_pos rfl,
          get_info_set_adjacent _ t 0 (some ts.triangle_count) t
            (by rw [count_set_vertex, count_replace_adjacent, count_set_adjacent, count_snd_add_triangle_info, count_snd_add_triangle_info]; omega),
          if_pos rfl,
          get_info_set_vertex _ t 0 p t
            (by rw [count_replace_adjacent, count_set_adjacent, count_snd_add_triangle_info, count_snd_add_triangle_info]; omega),
          if_pos rfl,
          get_info_replace_adjacent _ b (some t) (some (ts.triangle_count + 1)) t
            (by rw [count_set_adjacent, count_snd_add_triangle_info, count_snd_add_triangle_info]; omega),
          if_neg (fun h => hbT h.symm),
          get_info_set_adjacent _ ts.triangle_count 0
            (some (ts.triangle_count + 1)) t
            (by rw [count_snd_add_triangle_info, count_snd_add_triangle_info]; omega),
          if_neg htL,
          get_info_add_triangle_info _ _ t, count_snd_add_triangle_info,
          if_neg htL1,
          get_info_add_triangle_info _ _ t, if_neg htL, if_pos rfl]
        rfl
      · by_cases huL : u = ts.triangle_count
        · subst u
          rw [get_info_set_adjacent _ t 2 (some (ts.triangle_count + 1))
              ts.triangle_count
              (by rw [count_set_adjacent, count_set_vertex, count_replace_adjacent, count_set_adjacent, count_snd_add_triangle_info, count_snd_add_triangle_info]; omega),
            if_neg (fun h => htL h.symm),
            get_info_set_adjacent _ t 0 (some ts.triangle_count)
              ts.triangle_count
              (by rw [count_set_vertex, count_replace_adjacent, count_set_adjacent, count_snd_add_triangle_info, count_snd_add_triangle_info]; omega),
            if_neg (fun h => htL h.symm),
            get_info_set_vertex _ t 0 p ts.triangle_count
              (by rw [count_replace_adjacent, count_set_adjacent, count_snd_add_triangle_info, count_snd_add_triangle_info]; omega),
            if_neg (fun h => htL h.symm),
            get_info_replace_adjacent _ b (some t) (some (ts.triangle_count + 1))
              ts.triangle_count
              (by rw [count_set_adjacent, count_snd_add_triangle_info, count_snd_add_triangle_info]; omega),
            if_neg (fun h => hbL h.symm),
            get_info_set_adjacent _ ts.triangle_count 0
              (some (ts.triangle_count + 1)) ts.triangle_count
              (by rw [count_snd_add_triangle_info, count_snd_add_triangle_info]; omega),
            if_pos rfl,
            get_info_add_triangle_info _ _ ts.triangle_count,
            count_snd_add_triangle_info,
            if_neg (by omega),
            get_info_add_triangle_info _ _ ts.triangle_count, if_pos rfl,
            if_neg (fun h => htL h.symm), if_pos rfl]
          rfl
        · by_cases huL1 : u = ts.triangle_count + 1
          · subst u
            rw [get_info_set_adjacent _ t 2 (some (ts.triangle_count + 1))
                (ts.triangle_count + 1)
                (by rw [count_set_adjacent, count_set_vertex, count_replace_adjacent, count_set_adjacent, count_snd_add_triangle_info, count_snd_add_triangle_info]; omega),
              if_neg (fun h => htL1 h.symm),
              get_info_set_adjacent _ t 0 (some ts.triangle_count)
                (ts.triangle_count + 1)
                (by rw [count_set_vertex, count_replace_adjacent, count_set_adjacent, count_snd_add_triangle_info, count_snd_add_triangle_info]; omega),
              if_neg (fun h => htL1 h.symm),
              get_info_set_vertex _ t 0 p (ts.triangle_count + 1)
                (by rw [count_replace_adjacent, count_set_adjacent, count_snd_add_triangle_info, count_snd_add_triangle_info]; omega),
              if_neg (fun h => htL1 h.symm),
              get_info_replace_adjacent _ b (some t)
                (some (ts.triangle_count + 1)) (ts.triangle_count + 1)
                (by rw [count_set_adjacent, count_snd_add_triangle_info, count_snd_add_triangle_info]; omega),
              if_neg (fun h => hbL1 h.symm),
              get_info_set_adjacent _ ts.triangle_count 0
                (some (ts.triangle_count + 1)) (ts.triangle_count + 1)
                (by rw [count_snd_add_triangle_info, count_snd_add_triangle_info]; omega),
              if_neg (by omega),
              get_info_add_triangle_info _ _ (ts.triangle_count + 1),
              count_snd_add_triangle_info,
              if_pos rfl,
              if_neg (fun h => htL1 h.symm), if_neg (by omega), if_pos rfl]
          · by_cases hub : u = b
            · subst u
              rw [get_info_set_adjacent _ t 2 (some (ts.triangle_count + 1)) b
                  (by rw [count_set_adjacent, count_set_vertex, count_replace_adjacent, count_set_adjacent, count_snd_add_triangle_info, count_snd_add_triangle_info]; omega),
                if_neg hbT,
                get_info_set_adjacent _ t 0 (some ts.triangle_count) b
                  (by rw [count_set_vertex, count_replace_adjacent, count_set_adjacent, count_snd_add_triangle_info, count_snd_add_triangle_info]; omega),
                if_neg hbT,
                get_info_set_vertex _ t 0 p b
                  (by rw [count_replace_adjacent, count_set_adjacent, count_snd_add_triangle_info, count_snd_add_triangle_info]; omega),
                if_neg hbT,
                get_info_replace_adjacent _ b (some t)
                  (some (ts.triangle_count + 1)) b
                  (by rw [count_set_adjacent, count_snd_add_triangle_info, count_snd_add_triangle_info]; omega),
                if_pos rfl,
                get_info_set_adjacent _ ts.triangle_count 0
                  (some (ts.triangle_count + 1)) b
                  (by rw [count_snd_add_triangle_info, count_snd_add_triangle_info]; omega),
                if_neg hbL,
                get_info_add_triangle_info _ _ b, count_snd_add_triangle_info,
                if_neg hbL1,
                get_info_add_triangle_info _ _ b, if_neg hbL,
                if_neg hbT, if_neg hbL, if_neg hbL1,
                if_neg (fun h => Option.noConfusion h), if_pos rfl]
            · rw [get_info_set_adjacent _ t 2 (some (ts.triangle_count + 1)) u
                  (by rw [count_set_adjacent, count_set_vertex, count_replace_adjacent, count_set_adjacent, count_snd_add_triangle_info, count_snd_add_triangle_info]; omega),
                if_neg huT,
                get_info_set_adjacent _ t 0 (some ts.triangle_count) u
                  (by rw [count_set_vertex, count_replace_adjacent, count_set_adjacent, count_snd_add_triangle_info, count_snd_add_triangle_info]; omega),
                if_neg huT,
                get_info_set_vertex _ t 0 p u
                  (by rw [count_replace_adjacent, count_set_adjacent, count_snd_add_triangle_info, count_snd_add_triangle_info]; omega),
                if_neg huT,
                get_info_replace_adjacent _ b (some t)
                  (some (ts.triangle_count + 1)) u
                  (by rw [count_set_adjacent, count_snd_add_triangle_info, count_snd_add_triangle_info]; omega),
                if_neg hub,
                get_info_set_adjacent _ ts.triangle_count 0
                  (some (ts.triangle_count + 1)) u
                  (by rw [count_snd_add_triangle_info, count_snd_add_triangle_info]; omega),
                if_neg huL,
                get_info_add_triangle_info _ _ u, count_snd_add_triangle_info,
                if_neg huL1,
                get_info_add_triangle_info _ _ u, if_neg huL,
                if_neg huT, if_neg huL, if_neg huL1,
                if_neg (fun h => Option.noConfusion h),
                if_neg (fun h => hub (Option.some.inj h).symm)]
  · -- only the neighbour a across edge 0
    have halt : a < ts.triangle_count :=
      adjacent_lt_of_symmetric ts hsym t hT 0 a ha0
    have haT : a ≠ t := fun h =>
      no_self_adjacent ts hsym hdis t hT 0 (ha0.trans (congrArg some h))
    have haL : a ≠ ts.triangle_count := Nat.ne_of_lt halt
    have haL1 : a ≠ ts.triangle_count + 1 := by omega
    refine split_core_symmetric ts _ t p hsym hdis hnodup hT _ _ _ _ _ _
      rfl rfl rfl ha0 rfl ha2 ?_ ?_
    · rw [count_set_adjacent, count_set_adjacent, count_set_vertex,
        count_replace_adjacent, count_set_adjacent,
        count_snd_add_triangle_info, count_snd_add_triangle_info]
    · intro u
      by_cases huT : u = t
      · subst u
        rw [get_info_set_adjacent _ t 2 (some (ts.triangle_count + 1)) t
            (by rw [count_set_adjacent, count_set_vertex, count_replace_adjacent, count_set_adjacent, count_snd_add_triangle_info, count_snd_add_triangle_info]; omega),
          if_pos rfl,
          get_info_set_adjacent _ t 0 (some ts.triangle_count) t
            (by rw [count_set_vertex, count_replace_adjacent, count_set_adjacent, count_snd_add_triangle_info, count_snd_add_triangle_info]; omega),
          if_pos rfl,
          get_info_set_vertex _ t 0 p t
            (by rw [count_replace_adjacent, count_set_adjacent, count_snd_add_triangle_info, count_snd_add_triangle_info]; omega),
          if_pos rfl,
          get_info_replace_adjacent _ a (some t) (some ts.triangle_count) t
            (by rw [count_set_adjacent, count_snd_add_triangle_info, count_snd_add_triangle_info]; omega),
          if_neg (fun h => haT h.symm),
          get_info_set_adjacent _ ts.triangle_count 0
            (some (ts.triangle_count + 1)) t
            (by rw [count_snd_add_triangle_info, count_snd_add_triangle_info]; omega),
          if_neg htL,
          get_info_add_triangle_info _ _ t, count_snd_add_triangle_info,
          if_neg htL1,
          get_info_add_triangle_info _ _ t, if_neg htL, if_pos rfl]
        rfl
      · by_cases huL : u = ts.triangle_count
        · subst u
          rw [get_info_set_adjacent _ t 2 (some (ts.triangle_count + 1))
              ts.triangle_count
              (by rw [count_set_adjacent, count_set_vertex, count_replace_adjacent, count_set_adjacent, count_snd_add_triangle_info, count_snd_add_triangle_info]; omega),
            if_neg (fun h => htL h.symm),
            get_info_set_adjacent _ t 0 (some ts.triangle_count)
              ts.triangle_count
              (by rw [count_set_vertex, count_replace_adjacent, count_set_adjacent, count_snd_add_triangle_info, count_snd_add_triangle_info]; omega),
            if_neg (fun h => htL h.symm),
            get_info_set_vertex _ t 0 p ts.triangle_count
              (by rw [count_replace_adjacent, count_set_adjacent, count_snd_add_triangle_info, count_snd_add_triangle_info]; omega),
            if_neg (fun h => htL h.symm),
            get_info_replace_adjacent _ a (some t) (some ts.triangle_count)
              ts.triangle_count
              (by rw [count_set_adjacent, count_snd_add_triangle_info, count_snd_add_triangle_info]; omega),
            if_neg (fun h => haL h.symm),
            get_info_set_adjacent _ ts.triangle_count 0
              (some (ts.triangle_count + 1)) ts.triangle_count
              (by rw [count_snd_add_triangle_info, count_snd_add_triangle_info]; omega),
            if_pos rfl,
            get_info_add_triangle_info _ _ ts.triangle_count,
            count_snd_add_triangle_info,
            if_neg (by omega),
            get_info_add_triangle_info _ _ ts.triangle_count, if_pos rfl,
            if_neg (fun h => htL h.symm), if_pos rfl]
          rfl
        · by_cases huL1 : u = ts.triangle_count + 1
          · subst u
            rw [get_info_set_adjacent _ t 2 (some (ts.triangle_count + 1))
                (ts.triangle_count + 1)
                (by rw [count_set_adjacent, count_set_vertex, count_replace_adjacent, count_set_adjacent, count_snd_add_triangle_info, count_snd_add_triangle_info]; omega),
              if_neg (fun h => htL1 h.symm),
              get_info_set_adjacent _ t 0 (some ts.triangle_count)
                (ts.triangle_count + 1)
                (by rw [count_set_vertex, count_replace_adjacent, count_set_adjacent, count_snd_add_triangle_info, count_snd_add_triangle_info]; omega),
              if_neg (fun h => htL1 h.symm),
              get_info_set_vertex _ t 0 p (ts.triangle_count + 1)
                (by rw [count_replace_adjacent, count_set_adjacent, count_snd_add_triangle_info, count_snd_add_triangle_info]; omega),
              if_neg (fun h => htL1 h.symm),
              get_info_replace_adjacent _ a (some t) (some ts.triangle_count)
                (ts.triangle_count + 1)
                (by rw [count_set_adjacent, count_snd_add_triangle_info, count_snd_add_triangle_info]; omega),
              if_neg (fun h => haL1 h.symm),
              get_info_set_adjacent _ ts.triangle_count 0
                (some (ts.triangle_count + 1)) (ts.triangle_count + 1)
                (by rw [count_snd_add_triangle_info, count_snd_add_triangle_info]; omega),
              if_neg (by omega),
              get_info_add_triangle_info _ _ (ts.triangle_count + 1),
              count_snd_add_triangle_info,
              if_pos rfl,
              if_neg (fun h => htL1 h.symm), if_neg (by omega), if_pos rfl]
          · by_cases hua : u = a
            · subst u
              rw [get_info_set_adjacent _ t 2 (some (ts.triangle_count + 1)) a
                  (by rw [count_set_adjacent, count_set_vertex, count_replace_adjacent, count_set_adjacent, count_snd_add_triangle_info, count_snd_add_triangle_info]; omega),
                if_neg haT,
                get_info_set_adjacent _ t 0 (some ts.triangle_count) a
                  (by rw [count_set_vertex, count_replace_adjacent, count_set_adjacent, count_snd_add_triangle_info, count_snd_add_triangle_info]; omega),
                if_neg haT,
                get_info_set_vertex _ t 0 p a
                  (by rw [count_replace_adjacent, count_set_adjacent, count_snd_add_triangle_info, count_snd_add_triangle_info]; omega),
                if_neg haT,
                get_info_replace_adjacent _ a (some t) (some ts.triangle_count) a
                  (by rw [count_set_adjacent, count_snd_add_triangle_info, count_snd_add_triangle_info]; omega),
                if_pos rfl,
                get_info_set_adjacent _ ts.triangle_count 0
                  (some (ts.triangle_count + 1)) a
                  (by rw [count_snd_add_triangle_info, count_snd_add_triangle_info]; omega),
                if_neg haL,
                get_info_add_triangle_info _ _ a, count_snd_add_triangle_info,
                if_neg haL1,
                get_info_add_triangle_info _ _ a, if_neg haL,
                if_neg haT, if_neg haL, if_neg haL1, if_pos rfl]
            · rw [get_info_set_adjacent _ t 2 (some (ts.triangle_count + 1)) u
                  (by rw [count_set_adjacent, count_set_vertex, count_replace_adjacent, count_set_adjacent, count_snd_add_triangle_info, count_snd_add_triangle_info]; omega),
                if_neg huT,
                get_info_set_adjacent _ t 0 (some ts.triangle_count) u
                  (by rw [count_set_vertex, count_replace_adjacent, count_set_adjacent, count_snd_add_triangle_info, count_snd_add_triangle_info]; omega),
                if_neg huT,
                get_info_set_vertex _ t 0 p u
                  (by rw [count_replace_adjacent, count_set_adjacent, count_snd_add_triangle_info, count_snd_add_triangle_info]; omega),
                if_neg huT,
                get_info_replace_adjacent _ a (some t) (some ts.triangle_count) u
                  (by rw [count_set_adjacent, count_snd_add_triangle_info, count_snd_add_triangle_info]; omega),
                if_neg hua,
                get_info_set_adjacent _ ts.triangle_count 0
                  (some (ts.triangle_count + 1)) u
                  (by rw [count_snd_add_triangle_info, count_snd_add_triangle_info]; omega),
                if_neg huL,
                get_info_add_triangle_info _ _ u, count_snd_add_triangle_info,
                if_neg huL1,
                get_info_add_triangle_info _ _ u, if_neg huL,
                if_neg huT, if_neg huL, if_neg huL1,
                if_neg (fun h => hua (Option.some.inj h).symm),
                if_neg (fun h => Option.noConfusion h)]
  · -- both outward neighbours
    have halt : a < ts.triangle_count :=
      adjacent_lt_of_symmetric ts hsym t hT 0 a ha0
    have hblt : b < ts.triangle_count :=
      adjacent_lt_of_symmetric ts hsym t hT 2 b ha2
    have haT : a ≠ t := fun h =>
      no_self_adjacent ts hsym hdis t hT 0 (ha0.trans (congrArg some h))
    have hbT : b ≠ t := fun h =>
      no_self_adjacent ts hsym hdis t hT 2 (ha2.trans (congrArg some h))
    have hab : a ≠ b := fun h =>
      hnodup t hT 0 2 (by decide) b (ha0.trans (congrArg some h)) ha2
    have haL : a ≠ ts.triangle_count := Nat.ne_of_lt halt
    have haL1 : a ≠ ts.triangle_count + 1 := by omega
    have hbL : b ≠ ts.triangle_count := Nat.ne_of_lt hblt
    have hbL1 : b ≠ ts.triangle_count + 1 := by omega
    refine split_core_symmetric ts _ t p hsym hdis hnodup hT _ _ _ _ _ _
      rfl rfl rfl ha0 rfl ha2 ?_ ?_
    · rw [count_set_adjacent, count_set_adjacent, count_set_vertex,
        count_replace_adjacent, count_replace_adjacent, count_set_adjacent,
        count_snd_add_triangle_info, count_snd_add_triangle_info]
    · intro u
      by_cases huT : u = t
      · subst u
        rw [get_info_set_adjacent _ t 2 (some (ts.triangle_count + 1)) t
            (by rw [count_set_adjacent, count_set_vertex, count_replace_adjacent, count_replace_adjacent, count_set_adjacent, count_snd_add_triangle_info, count_snd_add_triangle_info]; omega),
          if_pos rfl,
          get_info_set_adjacent _ t 0 (some ts.triangle_count) t
            (by rw [count_set_vertex, count_replace_adjacent, count_replace_adjacent, count_set_adjacent, count_snd_add_triangle_info, count_snd_add_triangle_info]; omega),
          if_pos rfl,
          get_info_set_vertex _ t 0 p t
            (by rw [count_replace_adjacent, count_replace_adjacent, count_set_adjacent, count_snd_add_triangle_info, count_snd_add_triangle_info]; omega),
          if_pos rfl,
          get_info_replace_adjacent _ b (some t) (some (ts.triangle_count + 1)) t
            (by rw [count_replace_adjacent, count_set_adjacent, count_snd_add_triangle_info, count_snd_add_triangle_info]; omega),
          if_neg (fun h => hbT h.symm),
          get_info_replace_adjacent _ a (some t) (some ts.triangle_count) t
            (by rw [count_set_adjacent, count_snd_add_triangle_info, count_snd_add_triangle_info]; omega),
          if_neg (fun h => haT h.symm),
          get_info_set_adjacent _ ts.triangle_count 0
            (some (ts.triangle_count + 1)) t
            (by rw [count_snd_add_triangle_info, count_snd_add_triangle_info]; omega),
          if_neg htL,
          get_info_add_triangle_info _ _ t, count_snd_add_triangle_info,
          if_neg htL1,
          get_info_add_triangle_info _ _ t, if_neg htL, if_pos rfl]
        rfl
      · by_cases huL : u = ts.triangle_count
        · subst u
          rw [get_info_set_adjacent _ t 2 (some (ts.triangle_count + 1))
              ts.triangle_count
              (by rw [count_set_adjacent, count_set_vertex, count_replace_adjacent, count_replace_adjacent, count_set_adjacent, count_snd_add_triangle_info, count_snd_add_triangle_info]; omega),
            if_neg (fun h => htL h.symm),
            get_info_set_adjacent _ t 0 (some ts.triangle_count)
              ts.triangle_count
              (by rw [count_set_vertex, count_replace_adjacent, count_replace_adjacent, count_set_adjacent, count_snd_add_triangle_info, count_snd_add_triangle_info]; omega),
            if_neg (fun h => htL h.symm),
            get_info_set_vertex _ t 0 p ts.triangle_count
              (by rw [count_replace_adjacent, count_replace_adjacent, count_set_adjacent, count_snd_add_triangle_info, count_snd_add_triangle_info]; omega),
            if_neg (fun h => htL h.symm),
            get_info_replace_adjacent _ b (some t) (some (ts.triangle_count + 1))
              ts.triangle_count
              (by rw [count_replace_adjacent, count_set_adjacent, count_snd_add_triangle_info, count_snd_add_triangle_info]; omega),
            if_neg (fun h => hbL h.symm),
            get_info_replace_adjacent _ a (some t) (some ts.triangle_count)
              ts.triangle_count
              (by rw [count_set_adjacent, count_snd_add_triangle_info, count_snd_add_triangle_info]; omega),
            if_neg (fun h => haL h.symm),
            get_info_set_adjacent _ ts.triangle_count 0
              (some (ts.triangle_count + 1)) ts.triangle_count
              (by rw [count_snd_add_triangle_info, count_snd_add_triangle_info]; omega),
            if_pos rfl,
            get_info_add_triangle_info _ _ ts.triangle_count,
            count_snd_add_triangle_info,
            if_neg (by omega),
            get_info_add_triangle_info _ _ ts.triangle_count, if_pos rfl,
            if_neg (fun h => htL h.symm), if_pos rfl]
          rfl
        · by_cases huL1 : u = ts.triangle_count + 1
          · subst u
            rw [get_info_set_adjacent _ t 2 (some (ts.triangle_count + 1))
                (ts.triangle_count + 1)
                (by rw [count_set_adjacent, count_set_vertex, count_replace_adjacent, count_replace_adjacent, count_set_adjacent, count_snd_add_triangle_info, count_snd_add_triangle_info]; omega),
              if_neg (fun h => htL1 h.symm),
              get_info_set_adjacent _ t 0 (some ts.triangle_count)
                (ts.triangle_count + 1)
                (by rw [count_set_vertex, count_replace_adjacent, count_replace_adjacent, count_set_adjacent, count_snd_add_triangle_info, count_snd_add_triangle_info]; omega),
              if_neg (fun h => htL1 h.symm),
              get_info_set_vertex _ t 0 p (ts.triangle_count + 1)
                (by rw [count_replace_adjacent, count_replace_adjacent, count_set_adjacent, count_snd_add_triangle_info, count_snd_add_triangle_info]; omega),
              if_neg (fun h => htL1 h.symm),
              get_info_replace_adjacent _ b (some t)
                (some (ts.triangle_count + 1)) (ts.triangle_count + 1)
                (by rw [count_replace_adjacent, count_set_adjacent, count_snd_add_triangle_info, count_snd_add_triangle_info]; omega),
              if_neg (fun h => hbL1 h.symm),
              get_info_replace_adjacent _ a (some t) (some ts.triangle_count)
                (ts.triangle_count + 1)
                (by rw [count_set_adjacent, count_snd_add_triangle_info, count_snd_add_triangle_info]; omega),
              if_neg (fun h => haL1 h.symm),
              get_info_set_adjacent _ ts.triangle_count 0
                (some (ts.triangle_count + 1)) (ts.triangle_count + 1)
                (by rw [count_snd_add_triangle_info, count_snd_add_triangle_info]; omega),
              if_neg (by omega),
              get_info_add_triangle_info _ _ (ts.triangle_count + 1),
              count_snd_add_triangle_info,
              if_pos rfl,
              if_neg (fun h => htL1 h.symm), if_neg (by omega), if_pos rfl]
          · by_cases hua : u = a
            · subst u
              rw [get_info_set_adjacent _ t 2 (some (ts.triangle_count + 1)) a
                  (by rw [count_set_adjacent, count_set_vertex, count_replace_adjacent, count_replace_adjacent, count_set_adjacent, count_snd_add_triangle_info, count_snd_add_triangle_info]; omega),
                if_neg haT,
                get_info_set_adjacent _ t 0 (some ts.triangle_count) a
                  (by rw [count_set_vertex, count_replace_adjacent, count_replace_adjacent, count_set_adjacent, count_snd_add_triangle_info, count_snd_add_triangle_info]; omega),
                if_neg haT,
                get_info_set_vertex _ t 0 p a
                  (by rw [count_replace_adjacent, count_replace_adjacent, count_set_adjacent, count_snd_add_triangle_info, count_snd_add_triangle_info]; omega),
                if_neg haT,
                get_info_replace_adjacent _ b (some t)
                  (some (ts.triangle_count + 1)) a
                  (by rw [count_replace_adjacent, count_set_adjacent, count_snd_add_triangle_info, count_snd_add_triangle_info]; omega),
                if_neg hab,
                get_info_replace_adjacent _ a (some t) (some ts.triangle_count) a
                  (by rw [count_set_adjacent, count_snd_add_triangle_info, count_snd_add_triangle_info]; omega),
                if_pos rfl,
                get_info_set_adjacent _ ts.triangle_count 0
                  (some (ts.triangle_count + 1)) a
                  (by rw [count_snd_add_triangle_info, count_snd_add_triangle_info]; omega),
                if_neg haL,
                get_info_add_triangle_info _ _ a, count_snd_add_triangle_info,
                if_neg haL1,
                get_info_add_triangle_info _ _ a, if_neg haL,
                if_neg haT, if_neg haL, if_neg haL1, if_pos rfl]
            · by_cases hub : u = b
              · subst u
                rw [get_info_set_adjacent _ t 2 (some (ts.triangle_count + 1)) b
                    (by rw [count_set_adjacent, count_set_vertex, count_replace_adjacent, count_replace_adjacent, count_set_adjacent, count_snd_add_triangle_info, count_snd_add_triangle_info]; omega),
                  if_neg hbT,
                  get_info_set_adjacent _ t 0 (some ts.triangle_count) b
                    (by rw [count_set_vertex, count_replace_adjacent, count_replace_adjacent, count_set_adjacent, count_snd_add_triangle_info, count_snd_add_triangle_info]; omega),
                  if_neg hbT,
                  get_info_set_vertex _ t 0 p b
                    (by rw [count_replace_adjacent, count_replace_adjacent, count_set_adjacent, count_snd_add_triangle_info, count_snd_add_triangle_info]; omega),
                  if_neg hbT,
                  get_info_replace_adjacent _ b (some t)
                    (some (ts.triangle_count + 1)) b
                    (by rw [count_replace_adjacent, count_set_adjacent, count_snd_add_triangle_info, count_snd_add_triangle_info]; omega),
                  if_pos rfl,
                  get_info_replace_adjacent _ a (some t) (some ts.triangle_count)
                    b
                    (by rw [count_set_adjacent, count_snd_add_triangle_info, count_snd_add_triangle_info]; omega),
                  if_neg (fun h => hab h.symm),
                  get_info_set_adjacent _ ts.triangle_count 0
                    (some (ts.triangle_count + 1)) b
                    (by rw [count_snd_add_triangle_info, count_snd_add_triangle_info]; omega),
                  if_neg hbL,
                  get_info_add_triangle_info _ _ b, count_snd_add_triangle_info,
                  if_neg hbL1,
                  get_info_add_triangle_info _ _ b, if_neg hbL,
                  if_neg hbT, if_neg hbL, if_neg hbL1,
                  if_neg (fun h => hab (Option.some.inj h)), if_pos rfl]
              · rw [get_info_set_adjacent _ t 2 (some (ts.triangle_count + 1)) u
                    (by rw [count_set_adjacent, count_set_vertex, count_replace_adjacent, count_replace_adjacent, count_set_adjacent, count_snd_add_triangle_info, count_snd_add_triangle_info]; omega),
                  if_neg huT,
                  get_info_set_adjacent _ t 0 (some ts.triangle_count) u
                    (by rw [count_set_vertex, count_replace_adjacent, count_replace_adjacent, count_set_adjacent, count_snd_add_triangle_info, count_snd_add_triangle_info]; omega),
                  if_neg huT,
                  get_info_set_vertex _ t 0 p u
                    (by rw [count_replace_adjacent, count_replace_adjacent, count_set_adjacent, count_snd_add_triangle_info, count_snd_add_triangle_info]; omega),
                  if_neg huT,
                  get_info_replace_adjacent _ b (some t)
                    (some (ts.triangle_count + 1)) u
                    (by rw [count_replace_adjacent, count_set_adjacent, count_snd_add_triangle_info, count_snd_add_triangle_info]; omega),
                  if_neg hub,
                  get_info_replace_adjacent _ a (some t) (some ts.triangle_count)
                    u
                    (by rw [count_set_adjacent, count_snd_add_triangle_info, count_snd_add_triangle_info]; omega),
                  if_neg hua,
                  get_info_set_adjacent _ ts.triangle_count 0
                    (some (ts.triangle_count + 1)) u
                    (by rw [count_snd_add_triangle_info, count_snd_add_triangle_info]; omega),
                  if_neg huL,
                  get_info_add_triangle_info _ _ u, count_snd_add_triangle_info,
                  if_neg huL1,
                  get_info_add_triangle_info _ _ u, if_neg huL,
                  if_neg huT, if_neg huL, if_neg huL1,
                  if_neg (fun h => hua (Option.some.inj h).symm),
                  if_neg (fun h => hub (Option.some.inj h).symm)]

/-- C6: Adjacency symmetry is an invariant preserved by the two mutating
mesh operations, the point-insertion split (`triangulate_point` step 5,
`insert_point_in_triangle`) and the edge flip (`swap_edges`): starting
from a mesh in which every adjacency slot `Some U` of a triangle `T` is
mirrored by a slot of `U` that holds the reversed shared edge and points
back at `T` (plus the mesh invariants that vertex indices of a triangle
are distinct and no neighbour is listed twice), both operations produce a
mesh with the same mirrored-slot property. -/
theorem c6_adjacency_symmetry_preserved :
    (∀ (ts : TriangleSet) (ip : TriangleIndexPair) (s : Fin 3)
      (res : Option ℕ × Option ℕ) (ts' : TriangleSet),
      AdjacencySymmetric ts → VertexIndicesDistinct ts → AdjacencyNoDup ts →
      ip.current < ts.triangle_count →
      (ts.get_triangle_info ip.current).adjacentTriangleIndices s =
        some ip.adjacent →
      swap_edges ts ip s = .ok (res, ts') → AdjacencySymmetric ts') ∧
    (∀ (ts : TriangleSet) (t p : ℕ),
      AdjacencySymmetric ts → VertexIndicesDistinct ts → AdjacencyNoDup ts →
      t < ts.triangle_count →
      AdjacencySymmetric (insert_point_in_triangle ts t p).2.2) :=
  ⟨fun ts ip s res ts' hsym hdis hnodup hcur hadj hswap =>
    swap_edges_preserves_symmetry ts ip s hsym hdis hnodup hcur hadj res ts'
      hswap,
    fun ts t p hsym hdis hnodup hT =>
    insert_point_preserves_symmetry ts t p hsym hdis hnodup hT⟩

/-- Witness for C6: both preservation statements applied to concrete
meshes, the edge flip of the two-triangle square and the split of the unit
triangle at a fourth point. -/
theorem c6_witness :
    AdjacencySymmetric tsAfterSwap ∧ AdjacencySymmetric tsAfterSplit :=
  ⟨c6_adjacency_symmetry_preserved.1 tsTwoTriangles ⟨1, 0⟩ 1 (none, none)
      tsAfterSwap (by decide) (by decide) (by decide) (by decide) (by rfl)
      (by rfl),
    c6_adjacency_symmetry_preserved.2 tsUnitTriangle 0 3 (by decide)
      (by decide) (by decide) (by decide)⟩

end CDT






